import Mathlib

/-!
Verification of the `maria` recursive-descent translator (Rust).

The repository has two translator variants sharing a scanner design:
  * `src/cradle.rs`   — the expression translator (arithmetic into pseudo-assembly);
  * `src/controls.rs` — the statement / control-flow translator (labels, branches).

We embed both shallowly.  A translation session is a state record (`look`-ahead
character, remaining `input` characters, emitted `output` lines, and, for the
control-flow translator, the label counter `lcount`).  Rust panics
(`expected(..)`, the `break` failure, and the `unwrap()` on exhausted input)
become `Except` errors carrying the panic kind together with the state at the
moment of the panic, so that "output emitted before the failure" is observable.
The mutually recursive grammar productions take an explicit fuel argument; a
run that returns `.ok` is a run the Rust code completes.
-/

namespace Maria

/-- Panic kinds of the program: `expectedTok w` is `panic!("{w} Expected")`,
`noLoopToBreak` is `panic!("No loop to break from")`, and `endOfInput` is the
panic of `Option::unwrap()` when the reader yields no further byte.
`outOfFuel` is an artifact of the fueled embedding only; it corresponds to no
program behaviour. -/
inductive Err where
  | expectedTok (what : String)
  | noLoopToBreak
  | endOfInput
  | outOfFuel
  deriving DecidableEq, Repr

/-- The panic message the program prints for each error kind, from
`expected`, `do_break`, and Rust's standard `unwrap` panic respectively. -/
def errMsg : Err → String
  | .expectedTok w => w ++ " Expected"
  | .noLoopToBreak => "No loop to break from"
  | .endOfInput => "called `Option::unwrap()` on a `None` value"
  | .outOfFuel => "out of fuel"

/-- One output line.  `emitln s` in the source prints a tab followed by `s`
and a newline; `post_label l` prints `l` followed by a colon.  We keep the
two println shapes apart structurally; `render` recovers the exact text. -/
inductive Line where
  | instr (text : String)
  | label (name : String)
  deriving DecidableEq, Repr

/-- Exact text of an output line as printed by `emitln` / `post_label`. -/
def Line.render : Line → String
  | .instr t => "\t" ++ t
  | .label n => n ++ ":"

/-- The constant `TAB`. -/
def TAB : Char := '\t'

/-- The constant `SPACE`. -/
def SPACE : Char := ' '

/-- Membership in `[TAB, SPACE]`, the test of `is_white` applied to a
character. -/
def is_white_char (c : Char) : Bool := [TAB, SPACE].any (fun w => w == c)

/-- Rust `char::is_alphabetic` on the characters this program can ever hold:
input characters come from single bytes (`b as char`), so they lie in the
Latin-1 range, where the Unicode `Alphabetic` property is the set below. -/
def rust_is_alphabetic (c : Char) : Bool :=
  (0x41 ≤ c.toNat && c.toNat ≤ 0x5A) || (0x61 ≤ c.toNat && c.toNat ≤ 0x7A) ||
  c.toNat == 0xAA || c.toNat == 0xB5 || c.toNat == 0xBA ||
  (0xC0 ≤ c.toNat && c.toNat ≤ 0xD6) || (0xD8 ≤ c.toNat && c.toNat ≤ 0xF6) ||
  (0xF8 ≤ c.toNat && c.toNat ≤ 0xFF)

/-- Rust `char::is_ascii_alphanumeric`. -/
def is_ascii_alphanumeric (c : Char) : Bool :=
  (0x30 ≤ c.toNat && c.toNat ≤ 0x39) || (0x41 ≤ c.toNat && c.toNat ≤ 0x5A) ||
  (0x61 ≤ c.toNat && c.toNat ≤ 0x7A)

/-- Rust `char::is_ascii_digit`. -/
def is_ascii_digit (c : Char) : Bool := 0x30 ≤ c.toNat && c.toNat ≤ 0x39

/-- Rust `char::to_ascii_uppercase`. -/
def to_ascii_uppercase (c : Char) : Char :=
  if 0x61 ≤ c.toNat && c.toNat ≤ 0x7A then Char.ofNat (c.toNat - 0x20) else c

/-- The operator classification enum `Ops` of the source. -/
inductive Ops where
  | ADD
  | SUB
  | MUL
  | DIV
  | INVALID
  deriving DecidableEq, Repr

/-- The `From<char> for Ops` conversion of the source. -/
def ops_from (c : Char) : Ops :=
  match c with
  | '+' => Ops.ADD
  | '-' => Ops.SUB
  | '*' => Ops.MUL
  | '/' => Ops.DIV
  | _ => Ops.INVALID

/-- Decidable equality for `Except`, so that concrete runs of the
translators can be checked by `decide`. -/
instance {ε α : Type} [DecidableEq ε] [DecidableEq α] :
    DecidableEq (Except ε α) := fun x y =>
  match x, y with
  | .ok a, .ok b =>
    if h : a = b then .isTrue (h ▸ rfl)
    else .isFalse (fun k => h (by cases k; rfl))
  | .error a, .error b =>
    if h : a = b then .isTrue (h ▸ rfl)
    else .isFalse (fun k => h (by cases k; rfl))
  | .ok _, .error _ => .isFalse (fun k => by cases k)
  | .error _, .ok _ => .isFalse (fun k => by cases k)

/-- Digit list of `n` in decimal, most significant first, with a fuel
argument for structural recursion (`fuel = n + 1` always suffices since the
digit count of `n` is at most `n + 1`). -/
def natDigitsAux : Nat → Nat → List Char
  | 0, _ => []
  | fuel + 1, n =>
    if n < 10 then [Nat.digitChar n]
    else natDigitsAux fuel (n / 10) ++ [Nat.digitChar (n % 10)]

/-- Decimal rendering of a natural number, the model of Rust's
`usize::to_string` used by the label generator. -/
def natDec (n : Nat) : String := String.mk (natDigitsAux (n + 1) n)

/-- The text of the label numbered `k`, exactly as `new_label` builds it. -/
def lblName (k : Nat) : String := "L" ++ natDec k

/-- The names of the label-definition lines of an output, in emission
order. -/
def labelNames (out : List Line) : List String :=
  out.filterMap (fun l => match l with | .label n => some n | .instr _ => none)

namespace Cradle

/-- Session state of the expression translator (`src/cradle.rs`): the
lookahead character, the unread input, and the lines printed so far. -/
structure St where
  look : Char
  input : List Char
  output : List Line
  deriving DecidableEq, Repr

/-- Results of a `cradle.rs` computation: either a value or the panic kind
paired with the state (in particular the output) at the moment of panic. -/
abbrev Res (α : Type) := Except (Err × St) α

/-- The `get_char` method: take the next input character; the `unwrap`
panics when the reader is exhausted. -/
def get_char (s : St) : Res (Char × St) :=
  match s.input with
  | [] => .error (.endOfInput, s)
  | c :: rest => .ok (c, { s with input := rest })

/-- The loop of `skip_white`, recursing structurally on the input list:
while the lookahead is white, replace it by the next input character. -/
def sw_loop (out : List Line) (look : Char) : List Char → Res St
  | [] =>
    if is_white_char look then
      .error (.endOfInput, { look := look, input := [], output := out })
    else .ok { look := look, input := [], output := out }
  | c :: rest =>
    if is_white_char look then sw_loop out c rest
    else .ok { look := look, input := c :: rest, output := out }

/-- The `skip_white` method. -/
def skip_white (s : St) : Res St := sw_loop s.output s.look s.input

/-- The `emitln` method: print a tab, the string, and a newline — one
indented instruction line appended to the output. -/
def emitln (msg : String) (s : St) : St :=
  { s with output := s.output ++ [.instr msg] }

/-- The `match_char` method of the expression translator: panic
`"<x> Expected"` on mismatch, otherwise advance and skip trailing
whitespace. -/
def match_char (x : Char) (s : St) : Res St :=
  if s.look ≠ x then .error (.expectedTok (String.mk [x]), s)
  else
    match get_char s with
    | .error e => .error e
    | .ok (c, s₁) => skip_white { s₁ with look := c }

/-- The loop of `get_name`, structural on the input list: while the
lookahead is ASCII alphanumeric, push its upper-cased form onto the token
and advance. -/
def name_loop (out : List Line) (tok : String) (look : Char) :
    List Char → Res (String × St)
  | [] =>
    if is_ascii_alphanumeric look then
      .error (.endOfInput, { look := look, input := [], output := out })
    else .ok (tok, { look := look, input := [], output := out })
  | c :: rest =>
    if is_ascii_alphanumeric look then
      name_loop out (tok.push (to_ascii_uppercase look)) c rest
    else .ok (tok, { look := look, input := c :: rest, output := out })

/-- The `get_name` method of the expression translator: requires an
alphabetic lookahead, consumes the alphanumeric run upper-casing it, then
skips trailing whitespace. -/
def get_name (s : St) : Res (String × St) :=
  if ¬ rust_is_alphabetic s.look then .error (.expectedTok "Name", s)
  else
    match name_loop s.output "" s.look s.input with
    | .error e => .error e
    | .ok (tok, s₁) =>
      match skip_white s₁ with
      | .error e => .error e
      | .ok s₂ => .ok (tok, s₂)

/-- The loop of `get_num`, structural on the input list. -/
def num_loop (out : List Line) (val : String) (look : Char) :
    List Char → Res (String × St)
  | [] =>
    if is_ascii_digit look then
      .error (.endOfInput, { look := look, input := [], output := out })
    else .ok (val, { look := look, input := [], output := out })
  | c :: rest =>
    if is_ascii_digit look then num_loop out (val.push look) c rest
    else .ok (val, { look := look, input := c :: rest, output := out })

/-- The `get_num` method: requires a decimal-digit lookahead, consumes the
digit run, skips trailing whitespace. -/
def get_num (s : St) : Res (String × St) :=
  if ¬ is_ascii_digit s.look then .error (.expectedTok "Integer", s)
  else
    match num_loop s.output "" s.look s.input with
    | .error e => .error e
    | .ok (val, s₁) =>
      match skip_white s₁ with
      | .error e => .error e
      | .ok s₂ => .ok (val, s₂)

/-- The `is_mulop` test: the lookahead maps to `DIV` or `MUL`. -/
def is_mulop (s : St) : Bool :=
  [Ops.DIV, Ops.MUL].any (fun op => op == ops_from s.look)

/-- The `is_addop` test: the lookahead maps to `ADD` or `SUB`. -/
def is_addop (s : St) : Bool :=
  [Ops.ADD, Ops.SUB].any (fun op => op == ops_from s.look)

/-- The `ident` method: a name followed by `()` becomes a `BSR` call,
otherwise a load of the variable into the accumulator. -/
def ident (s : St) : Res St :=
  match get_name s with
  | .error e => .error e
  | .ok (name, s₁) =>
    if s₁.look = '(' then
      match match_char '(' s₁ with
      | .error e => .error e
      | .ok s₂ =>
        match match_char ')' s₂ with
        | .error e => .error e
        | .ok s₃ => .ok (emitln ("BSR " ++ name) s₃)
    else .ok (emitln ("MOVE " ++ name ++ "(PC),D0") s₁)

mutual

/-- The `expression` method: optional leading addop clears the accumulator,
otherwise a first term; then the addop loop. -/
def expression : Nat → St → Res St
  | 0, s => .error (.outOfFuel, s)
  | n + 1, s =>
    if is_addop s then expr_loop n (emitln "CLR D0" s)
    else
      match term n s with
      | .error e => .error e
      | .ok s₁ => expr_loop n s₁

/-- The `while is_addop` loop of `expression`: push the accumulator, then
dispatch on the operator (`add` or `subtract`), and repeat. -/
def expr_loop : Nat → St → Res St
  | 0, s => .error (.outOfFuel, s)
  | n + 1, s =>
    if is_addop s then
      match
        (match ops_from (emitln "MOVE D0,-(SP)" s).look with
         | .ADD => add n (emitln "MOVE D0,-(SP)" s)
         | .SUB => subtract n (emitln "MOVE D0,-(SP)" s)
         | _ => .error (.expectedTok "Addop", emitln "MOVE D0,-(SP)" s)) with
      | .error e => .error e
      | .ok s₂ => expr_loop n s₂
    else .ok s

/-- The `term` method: a factor, then the mulop loop. -/
def term : Nat → St → Res St
  | 0, s => .error (.outOfFuel, s)
  | n + 1, s =>
    match factor n s with
    | .error e => .error e
    | .ok s₁ => term_loop n s₁

/-- The `while is_mulop` loop of `term`: push the accumulator, then
dispatch on the operator (`multiply` or `divide`), and repeat. -/
def term_loop : Nat → St → Res St
  | 0, s => .error (.outOfFuel, s)
  | n + 1, s =>
    if is_mulop s then
      match
        (match ops_from (emitln "MOVE D0,-(SP)" s).look with
         | .MUL => multiply n (emitln "MOVE D0,-(SP)" s)
         | .DIV => divide n (emitln "MOVE D0,-(SP)" s)
         | _ => .error (.expectedTok "Mulop", emitln "MOVE D0,-(SP)" s)) with
      | .error e => .error e
      | .ok s₂ => term_loop n s₂
    else .ok s

/-- The `factor` method: a parenthesized expression, an identifier, or a
number loaded immediate into the accumulator. -/
def factor : Nat → St → Res St
  | 0, s => .error (.outOfFuel, s)
  | n + 1, s =>
    if s.look = '(' then
      match match_char '(' s with
      | .error e => .error e
      | .ok s₁ =>
        match expression n s₁ with
        | .error e => .error e
        | .ok s₂ =>
          match match_char ')' s₂ with
          | .error e => .error e
          | .ok s₃ => .ok s₃
    else if rust_is_alphabetic s.look then ident s
    else
      match get_num s with
      | .error e => .error e
      | .ok (num, s₁) => .ok (emitln ("MOVE #" ++ num ++ ",D0") s₁)

/-- The `multiply` method: match `*`, translate the right factor, combine
with the pushed left operand. -/
def multiply : Nat → St → Res St
  | 0, s => .error (.outOfFuel, s)
  | n + 1, s =>
    match match_char '*' s with
    | .error e => .error e
    | .ok s₁ =>
      match factor n s₁ with
      | .error e => .error e
      | .ok s₂ => .ok (emitln "MULS (SP)+,D0" s₂)

/-- The `divide` method: match `/`, translate the right factor, pop the
pushed left operand into `D1` and divide it by the accumulator. -/
def divide : Nat → St → Res St
  | 0, s => .error (.outOfFuel, s)
  | n + 1, s =>
    match match_char '/' s with
    | .error e => .error e
    | .ok s₁ =>
      match factor n s₁ with
      | .error e => .error e
      | .ok s₂ => .ok (emitln "DIVS D1,D0" (emitln "MOVE (SP)+,D1" s₂))

/-- The `add` method: match `+`, translate the right term, combine. -/
def add : Nat → St → Res St
  | 0, s => .error (.outOfFuel, s)
  | n + 1, s =>
    match match_char '+' s with
    | .error e => .error e
    | .ok s₁ =>
      match term n s₁ with
      | .error e => .error e
      | .ok s₂ => .ok (emitln "ADD (SP)+,D0" s₂)

/-- The `subtract` method: match `-`, translate the right term, combine
from the stack and negate the accumulator. -/
def subtract : Nat → St → Res St
  | 0, s => .error (.outOfFuel, s)
  | n + 1, s =>
    match match_char '-' s with
    | .error e => .error e
    | .ok s₁ =>
      match term n s₁ with
      | .error e => .error e
      | .ok s₂ => .ok (emitln "NEG D0" (emitln "SUB (SP)+,D0" s₂))

end

end Cradle

namespace Controls

/-- Session state of the statement / control-flow translator
(`src/controls.rs`): the lookahead character, the unread input, the label
counter `lcount`, and the lines printed so far. -/
structure St where
  look : Char
  input : List Char
  lcount : Nat
  output : List Line
  deriving DecidableEq, Repr

/-- Results of a `controls.rs` computation: either a value or the panic kind
paired with the state at the moment of panic. -/
abbrev Res (α : Type) := Except (Err × St) α

/-- The `get_char` method of the statement translator. -/
def get_char (s : St) : Res (Char × St) :=
  match s.input with
  | [] => .error (.endOfInput, s)
  | c :: rest => .ok (c, { s with input := rest })

/-- The `emitln` method of the statement translator: one indented
instruction line appended to the output. -/
def emitln (msg : String) (s : St) : St :=
  { s with output := s.output ++ [.instr msg] }

/-- The `post_label` method: print `"{label}:"`, an unindented
label-definition line. -/
def post_label (label : String) (s : St) : St :=
  { s with output := s.output ++ [.label label] }

/-- The `match_char` method of the statement translator: panic
`"<x> Expected"` on mismatch, otherwise advance.  Unlike the expression
translator's `match_char`, it does not skip whitespace afterwards. -/
def match_char (x : Char) (s : St) : Res St :=
  if s.look ≠ x then .error (.expectedTok (String.mk [x]), s)
  else
    match get_char s with
    | .error e => .error e
    | .ok (c, s₁) => .ok { s₁ with look := c }

/-- The `get_name` method of the statement translator: requires an
alphabetic lookahead, consumes exactly that one character, and returns it
upper-cased.  Unlike the expression translator's `get_name`, it reads a
single character and skips no whitespace. -/
def get_name (s : St) : Res (Char × St) :=
  if ¬ rust_is_alphabetic s.look then .error (.expectedTok "Name", s)
  else
    match get_char s with
    | .error e => .error e
    | .ok (c, s₁) => .ok (to_ascii_uppercase s.look, { s₁ with look := c })

/-- Sequencing of the statement translator's computations: run `x`; a panic
propagates, a value feeds the continuation.  This is the shape every
statement-level composition in the source has (a panic aborts the whole
translation). -/
def seqE {α β : Type} (x : Res α) (f : α → Res β) : Res β :=
  match x with
  | .error e => .error e
  | .ok a => f a

/-- The `other` method: read a one-character name and emit it as a bare
(indented) statement line. -/
def other (s : St) : Res St :=
  seqE (get_name s) fun p => .ok (emitln (String.mk [p.1]) p.2)

/-- The `Cradle::new` constructor of the statement translator: read the
first input character into the lookahead, then run `other`. -/
def new (input : List Char) : Res St :=
  seqE (get_char { look := '2', input := input, lcount := 0, output := [] })
    fun p => other { p.2 with look := p.1 }

/-- The `expression` method of the statement translator: a stub that only
emits the `<expr>` marker line. -/
def expression (s : St) : St := emitln "<expr>" s

/-- The `condition` method: a stub that only emits the `<condition>`
marker line. -/
def condition (s : St) : St := emitln "<condition>" s

/-- The `new_label` method: return `"L"` followed by the current counter
value in decimal, then increment the counter. -/
def new_label (s : St) : String × St :=
  ("L" ++ natDec s.lcount, { s with lcount := s.lcount + 1 })

/-- The `do_break` method: match `b`; with a non-empty break target emit an
unconditional jump to it, otherwise panic `"No loop to break from"`. -/
def do_break (label : String) (s : St) : Res St :=
  seqE (match_char 'b' s) fun s₁ =>
    if label ≠ "" then .ok (emitln ("BRA " ++ label) s₁)
    else .error (.noLoopToBreak, s₁)

mutual

/-- The `block` method: while the lookahead is outside the fixed terminator
set `['e', 'l', 'u']`, dispatch one statement on the lookahead (the
argument `label` is the active break target passed to nested constructs). -/
def block : Nat → String → St → Res St
  | 0, _, s => .error (.outOfFuel, s)
  | n + 1, label, s =>
    if ['e', 'l', 'u'].any (fun c => c == s.look) then .ok s
    else
      seqE
        (if s.look = 'i' then do_if n label s
         else if s.look = 'w' then do_while n s
         else if s.look = 'p' then do_loop n s
         else if s.look = 'r' then do_repeat n s
         else if s.look = 'f' then do_for n s
         else if s.look = 'd' then do_do n s
         else if s.look = 'b' then do_break label s
         else other s)
        fun s₁ => block n label s₁

/-- The `do_if` method: allocate `label1`, hold `label2` initially equal to
it, branch-if-false to `label1` over the then-block; with an `else` branch
allocate `label2`, jump to it, place `label1`, translate the else-block;
finally place `label2`. -/
def do_if : Nat → String → St → Res St
  | 0, _, s => .error (.outOfFuel, s)
  | n + 1, label, s =>
    seqE (match_char 'i' s) fun s₁ =>
      let p := new_label s₁
      seqE (block n label (emitln ("BEQ " ++ p.1) (condition p.2))) fun s₂ =>
        if s₂.look = 'l' then
          seqE (match_char 'l' s₂) fun s₃ =>
            let q := new_label s₃
            seqE (block n label (post_label p.1 (emitln ("BRA " ++ q.1) q.2)))
              fun s₄ =>
                seqE (match_char 'e' s₄) fun s₅ => .ok (post_label q.1 s₅)
        else
          seqE (match_char 'e' s₂) fun s₃ => .ok (post_label p.1 s₃)

/-- The `do_while` method: top label, condition stub, branch-if-false to
the exit label, body with the exit label as break target, jump back to the
top label, exit label. -/
def do_while : Nat → St → Res St
  | 0, s => .error (.outOfFuel, s)
  | n + 1, s =>
    seqE (match_char 'w' s) fun s₁ =>
      let p := new_label s₁
      let q := new_label p.2
      seqE (block n q.1 (emitln ("BEQ " ++ q.1) (condition (post_label p.1 q.2))))
        fun s₂ =>
          seqE (match_char 'e' s₂) fun s₃ =>
            .ok (post_label q.1 (emitln ("BRA " ++ p.1) s₃))

/-- The `do_loop` method: top label, body with the exit label as break
target, jump back to the top label, exit label. -/
def do_loop : Nat → St → Res St
  | 0, s => .error (.outOfFuel, s)
  | n + 1, s =>
    seqE (match_char 'p' s) fun s₁ =>
      let p := new_label s₁
      let q := new_label p.2
      seqE (block n q.1 (post_label p.1 q.2)) fun s₂ =>
        seqE (match_char 'e' s₂) fun s₃ =>
          .ok (post_label q.1 (emitln ("BRA " ++ p.1) s₃))

/-- The `do_repeat` method: top label, body with the exit label as break
target, `until` condition, branch-if-false back to the top label, exit
label. -/
def do_repeat : Nat → St → Res St
  | 0, s => .error (.outOfFuel, s)
  | n + 1, s =>
    seqE (match_char 'r' s) fun s₁ =>
      let p := new_label s₁
      let q := new_label p.2
      seqE (block n q.1 (post_label p.1 q.2)) fun s₂ =>
        seqE (match_char 'u' s₂) fun s₃ =>
          .ok (post_label q.1 (emitln ("BEQ " ++ p.1) (condition s₃)))

/-- The `do_for` method, with its emitted instruction lines reproduced
verbatim (including the source's literal `DO` operands). -/
def do_for : Nat → St → Res St
  | 0, s => .error (.outOfFuel, s)
  | n + 1, s =>
    seqE (match_char 'f' s) fun s₁ =>
      let p := new_label s₁
      let q := new_label p.2
      seqE (get_name q.2) fun pr =>
        seqE (match_char '=' pr.2) fun s₃ =>
          seqE
            (block n q.1
              (emitln ("BGT " ++ q.1) (emitln "CMP (SP),(A0)"
                (emitln "MOVE DO,(A0)" (emitln "MOVE #1,D0"
                  (emitln "MOVE (A0),D0"
                    (emitln ("LEA " ++ String.mk [pr.1] ++ "(PC),A0")
                      (post_label p.1 (emitln "MOVE DO,-(SP)"
                        (expression (emitln "MOVE DO,(A0)"
                          (emitln ("LEA " ++ String.mk [pr.1] ++ "(PC),A0")
                            (emitln "SUBQ #1,D0" (expression s₃))))))))))))))
            fun s₅ =>
              seqE (match_char 'e' s₅) fun s₆ =>
                .ok (emitln "ADDQ #2,SP"
                  (post_label q.1 (emitln ("BRA " ++ p.1) s₆)))

/-- The `do_do` method: evaluate the trip count, decrement it, top label,
save the counter, body with the exit label as break target, restore the
counter, decrement-and-branch back, exit label. -/
def do_do : Nat → St → Res St
  | 0, s => .error (.outOfFuel, s)
  | n + 1, s =>
    seqE (match_char 'd' s) fun s₁ =>
      let p := new_label s₁
      let q := new_label p.2
      seqE
        (block n q.1
          (emitln "MOVE D0,-(SP)"
            (post_label p.1 (emitln "SUBQ #1,D0" (expression q.2)))))
        fun s₃ =>
          .ok (emitln "ADDQ #2,SP"
            (post_label q.1 (emitln "SUBQ #2,SP"
              (emitln ("DBRA D0," ++ p.1) (emitln "MOVE (SP)+,D0" s₃)))))

end

/-- The `do_program` method: a block with an empty break target, then the
lookahead must be `e`, then emit `END`. -/
def do_program (n : Nat) (s : St) : Res St :=
  seqE (block n "" s) fun s₁ =>
    if s₁.look ≠ 'e' then .error (.expectedTok "End", s₁)
    else .ok (emitln "END" s₁)

/-- One whole translation session of the statement translator, as the
repository's own test drives it: construct the session with `Cradle::new`
(which already consumes and echoes the leading name character), then run
`do_program`. -/
def translate (n : Nat) (input : List Char) : Res St :=
  seqE (new input) fun s => do_program n s

end Controls

/-- Value of a decimal digit string, the left inverse of `natDec` used to
show that distinct counters yield distinct label texts. -/
def decVal (cs : List Char) : Nat :=
  cs.foldl (fun a c => 10 * a + (c.toNat - 48)) 0

/-- Label-discipline relation between two states of the statement
translator: the counter does not decrease, the output only grows, and the
label-definition lines added are labels with pairwise distinct indices all
allocated within the run (at or above the starting counter, below the final
counter). -/
def GoodRun (s r : Controls.St) : Prop :=
  s.lcount ≤ r.lcount ∧
  ∃ (Δ : List Line) (ks : List Nat), r.output = s.output ++ Δ ∧
    labelNames Δ = ks.map lblName ∧
    ks.Nodup ∧ ∀ k ∈ ks, s.lcount ≤ k ∧ k < r.lcount

/-- The label-discipline property for every statement-translator construct
at a given fuel, proved simultaneously by induction on the fuel. -/
def AllGood (n : Nat) : Prop :=
  (∀ lbl s r, Controls.block n lbl s = .ok r → GoodRun s r) ∧
  (∀ lbl s r, Controls.do_if n lbl s = .ok r → GoodRun s r) ∧
  (∀ s r, Controls.do_while n s = .ok r → GoodRun s r) ∧
  (∀ s r, Controls.do_loop n s = .ok r → GoodRun s r) ∧
  (∀ s r, Controls.do_repeat n s = .ok r → GoodRun s r) ∧
  (∀ s r, Controls.do_for n s = .ok r → GoodRun s r) ∧
  (∀ s r, Controls.do_do n s = .ok r → GoodRun s r)

/-- Whether `pat` is an initial segment of the second list. -/
def begWith : List Char → List Char → Bool
  | [], _ => true
  | _ :: _, [] => false
  | p :: ps, c :: cs => p == c && begWith ps cs

/-- Whether `pat` occurs as a contiguous segment anywhere in the list;
used to check that no emitted instruction even mentions a label text. -/
def hasSeg (pat : List Char) : List Char → Bool
  | [] => begWith pat []
  | c :: rest => begWith pat (c :: rest) || hasSeg pat rest

/-! ## Helper lemmas: the scanner primitives. -/

/-- Contract of the whitespace-skipping loop: on success it splits the
pending characters into a white prefix and a rest beginning with the new
non-white lookahead, and leaves the output untouched. -/
theorem Cradle.sw_loop_ok : ∀ (input : List Char) (out : List Line) (look : Char)
    (r : Cradle.St), Cradle.sw_loop out look input = .ok r →
    ∃ ws, (look :: input) = ws ++ (r.look :: r.input) ∧
      (∀ c ∈ ws, is_white_char c = true) ∧ is_white_char r.look = false ∧
      r.output = out := by
  intro input
  induction input with
  | nil =>
    intro out look r h
    by_cases hw : is_white_char look = true
    · simp [Cradle.sw_loop, hw] at h
    · simp [Cradle.sw_loop, hw] at h
      refine ⟨[], ?_, ?_, ?_, ?_⟩ <;> simp [← h, Bool.not_eq_true] at hw ⊢ <;>
        simp [hw]
  | cons c rest ih =>
    intro out look r h
    by_cases hw : is_white_char look = true
    · simp only [Cradle.sw_loop, hw, if_true] at h
      obtain ⟨ws, hsplit, hall, hnw, hout⟩ := ih out c r h
      refine ⟨look :: ws, ?_, ?_, hnw, hout⟩
      · simp [hsplit]
      · intro d hd
        rcases List.mem_cons.mp hd with h1 | h2
        · exact h1 ▸ hw
        · exact hall d h2
    · simp [Cradle.sw_loop, hw] at h
      refine ⟨[], ?_, ?_, ?_, ?_⟩ <;>
        simp [← h, Bool.not_eq_true] at hw ⊢ <;> simp [hw]

/-- Contract of the identifier loop: on success it consumes a maximal
alphanumeric run, the result token extends the accumulator by the run
upper-cased, and the output is untouched. -/
theorem Cradle.name_loop_ok : ∀ (input : List Char) (out : List Line) (tok : String)
    (look : Char) (tokr : String) (r : Cradle.St),
    Cradle.name_loop out tok look input = .ok (tokr, r) →
    ∃ run, (look :: input) = run ++ (r.look :: r.input) ∧
      (∀ c ∈ run, is_ascii_alphanumeric c = true) ∧
      is_ascii_alphanumeric r.look = false ∧
      tokr.data = tok.data ++ (run.map to_ascii_uppercase) ∧ r.output = out := by
  intro input
  induction input with
  | nil =>
    intro out tok look tokr r h
    by_cases ha : is_ascii_alphanumeric look = true
    · simp [Cradle.name_loop, ha] at h
    · simp [Cradle.name_loop, ha] at h
      refine ⟨[], ?_, ?_, ?_, ?_, ?_⟩ <;>
        simp [← h.1, ← h.2, Bool.not_eq_true] at ha ⊢ <;> simp [ha]
  | cons c rest ih =>
    intro out tok look tokr r h
    by_cases ha : is_ascii_alphanumeric look = true
    · simp only [Cradle.name_loop, ha, if_true] at h
      obtain ⟨run, hsplit, hall, hna, htok, hout⟩ :=
        ih out (tok.push (to_ascii_uppercase look)) c tokr r h
      refine ⟨look :: run, ?_, ?_, hna, ?_, hout⟩
      · simp [hsplit]
      · intro d hd
        rcases List.mem_cons.mp hd with h1 | h2
        · exact h1 ▸ ha
        · exact hall d h2
      · simpa [String.push] using htok
    · simp [Cradle.name_loop, ha] at h
      refine ⟨[], ?_, ?_, ?_, ?_, ?_⟩ <;>
        simp [← h.1, ← h.2, Bool.not_eq_true] at ha ⊢ <;> simp [ha]

/-- Success of the expression translator's `match_char`: the lookahead was
the expected character, the output is untouched, the consumed prefix of the
input is white, and the new lookahead is not white. -/
theorem Cradle.match_char_ok_expr : ∀ (x : Char) (s r : Cradle.St),
    Cradle.match_char x s = .ok r →
    s.look = x ∧ r.output = s.output ∧
    ∃ ws, s.input = ws ++ (r.look :: r.input) ∧
      (∀ c ∈ ws, is_white_char c = true) ∧ is_white_char r.look = false := by
  intro x s r h
  by_cases hx : s.look = x
  · simp only [Cradle.match_char, hx, ne_eq, not_true_eq_false, if_false] at h
    cases hi : s.input with
    | nil => rw [Cradle.get_char, hi] at h; simp at h
    | cons c rest =>
      rw [Cradle.get_char, hi] at h
      simp only [Cradle.skip_white] at h
      obtain ⟨ws, hsplit, hall, hnw, hout⟩ := Cradle.sw_loop_ok rest s.output c r h
      exact ⟨hx, hout, ws, hsplit, hall, hnw⟩
  · simp [Cradle.match_char, hx] at h

/-- Success of the statement translator's `match_char`: the lookahead was
the expected character and exactly one character is consumed; the counter
and the output are untouched and no whitespace is skipped. -/
theorem Controls.match_char_ok : ∀ (x : Char) (s r : Controls.St),
    Controls.match_char x s = .ok r →
    s.look = x ∧ s.input = r.look :: r.input ∧ r.lcount = s.lcount ∧
    r.output = s.output := by
  intro x s r h
  by_cases hx : s.look = x
  · simp only [Controls.match_char, hx, ne_eq, not_true_eq_false, if_false] at h
    cases hi : s.input with
    | nil => rw [Controls.get_char, hi] at h; simp at h
    | cons c rest =>
      rw [Controls.get_char, hi] at h
      simp only [Except.ok.injEq] at h
      refine ⟨hx, ?_, ?_, ?_⟩ <;> simp [← h, hi]
  · simp [Controls.match_char, hx] at h

/-- Success of the statement translator's `get_name`: the lookahead was
alphabetic, its upper-cased form is returned, and exactly one character is
consumed, with counter and output untouched. -/
theorem Controls.get_name_ok : ∀ (s : Controls.St) (c : Char) (r : Controls.St),
    Controls.get_name s = .ok (c, r) →
    rust_is_alphabetic s.look = true ∧ c = to_ascii_uppercase s.look ∧
    s.input = r.look :: r.input ∧ r.lcount = s.lcount ∧ r.output = s.output := by
  intro s c r h
  by_cases ha : rust_is_alphabetic s.look = true
  · simp only [Controls.get_name, ha, not_true_eq_false, if_false] at h
    cases hi : s.input with
    | nil => rw [Controls.get_char, hi] at h; simp at h
    | cons d rest =>
      rw [Controls.get_char, hi] at h
      simp only [Except.ok.injEq, Prod.mk.injEq] at h
      refine ⟨ha, h.1.symm, ?_, ?_, ?_⟩ <;> simp [← h.2, hi]
  · simp [Controls.get_name, ha] at h

/-! ## Helper lemmas: sequencing, decimal labels, and label discipline. -/

/-- Inversion of a successful sequenced computation: the first computation
succeeded and its value fed the continuation. -/
theorem Controls.seqE_ok {α β : Type} {x : Controls.Res α} {f : α → Controls.Res β}
    {r : β} (h : Controls.seqE x f = .ok r) : ∃ a, x = .ok a ∧ f a = .ok r := by
  cases x with
  | error e => simp [Controls.seqE] at h
  | ok a => exact ⟨a, rfl, by simpa [Controls.seqE] using h⟩

/-- Code of the digit character of `k < 10`. -/
theorem digitChar_toNat : ∀ k : Nat, k < 10 → (Nat.digitChar k).toNat = 48 + k := by
  intro k hk
  interval_cases k <;> rfl

/-- The decimal rendering round-trips through `decVal` when the fuel
suffices. -/
theorem decVal_natDigitsAux : ∀ (fuel n : Nat), n < fuel →
    decVal (natDigitsAux fuel n) = n := by
  intro fuel
  induction fuel with
  | zero => intro n h; omega
  | succ m ih =>
    intro n h
    by_cases h10 : n < 10
    · simp only [natDigitsAux, h10, if_true, decVal, List.foldl_cons, List.foldl_nil]
      rw [digitChar_toNat n h10]
      omega
    · have hdiv : n / 10 < m := by
        have h1 : n / 10 < n := Nat.div_lt_self (by omega) (by omega)
        omega
      simp only [natDigitsAux, h10, if_false]
      rw [decVal, List.foldl_append]
      rw [show List.foldl (fun a c => 10 * a + (c.toNat - 48)) 0
        (natDigitsAux m (n / 10)) = decVal (natDigitsAux m (n / 10)) from rfl]
      rw [ih (n / 10) hdiv]
      simp only [List.foldl_cons, List.foldl_nil]
      rw [digitChar_toNat (n % 10) (Nat.mod_lt n (by omega))]
      omega

/-- Distinct naturals render to distinct decimal digit lists. -/
theorem natDec_data_inj : ∀ a b : Nat, (natDec a).data = (natDec b).data → a = b := by
  intro a b h
  have ha := decVal_natDigitsAux (a + 1) a (Nat.lt_succ_self a)
  have hb := decVal_natDigitsAux (b + 1) b (Nat.lt_succ_self b)
  have hd : natDigitsAux (a + 1) a = natDigitsAux (b + 1) b := h
  rw [← ha, ← hb, hd]

/-- Appending strings appends their character data. -/
theorem string_data_append (s t : String) : (s ++ t).data = s.data ++ t.data := rfl

/-- Distinct label indices yield distinct label texts. -/
theorem lblName_inj : Function.Injective lblName := by
  intro a b h
  apply natDec_data_inj
  have h2 : ("L" ++ natDec a).data = ("L" ++ natDec b).data := by
    simpa [lblName] using congrArg String.data h
  rw [string_data_append, string_data_append] at h2
  exact List.append_cancel_left h2

/-- The label names of a concatenated output are the concatenated label
names. -/
theorem labelNames_append (a b : List Line) :
    labelNames (a ++ b) = labelNames a ++ labelNames b := by
  simp [labelNames]

/-- `GoodRun` is reflexive. -/
theorem goodRun_refl (s : Controls.St) : GoodRun s s := by
  exact ⟨le_rfl, [], [], by simp, by simp [labelNames], by simp, by simp⟩

/-- `GoodRun` composes along sequenced runs: the two ranges of allocated
label indices are disjoint, so distinctness is preserved. -/
theorem goodRun_trans {s t r : Controls.St} (h1 : GoodRun s t) (h2 : GoodRun t r) :
    GoodRun s r := by
  obtain ⟨m1, Δ1, ks1, ho1, hl1, hn1, hb1⟩ := h1
  obtain ⟨m2, Δ2, ks2, ho2, hl2, hn2, hb2⟩ := h2
  refine ⟨le_trans m1 m2, Δ1 ++ Δ2, ks1 ++ ks2, ?_, ?_, ?_, ?_⟩
  · rw [ho2, ho1, List.append_assoc]
  · rw [labelNames_append, hl1, hl2, List.map_append]
  · refine List.Nodup.append hn1 hn2 ?_
    intro k hk1 hk2
    have x1 := hb1 k hk1
    have x2 := hb2 k hk2
    omega
  · intro k hk
    rcases List.mem_append.mp hk with hx | hx
    · have := hb1 k hx
      exact ⟨this.1, lt_of_lt_of_le this.2 m2⟩
    · have := hb2 k hx
      exact ⟨le_trans m1 this.1, this.2⟩

/-- A run that appends only instruction lines and does not decrease the
counter is a `GoodRun`. -/
theorem goodRun_of_instrs {s r : Controls.St} (Δ : List Line)
    (hlab : labelNames Δ = []) (ho : r.output = s.output ++ Δ)
    (hc : s.lcount ≤ r.lcount) : GoodRun s r :=
  ⟨hc, Δ, [], ho, by simp [hlab], by simp, by simp⟩

/-- `other` satisfies the label discipline: it appends one instruction
line. -/
theorem other_goodRun : ∀ (s r : Controls.St),
    Controls.other s = .ok r → GoodRun s r := by
  intro s r h
  simp only [Controls.other] at h
  obtain ⟨p, hg, h2⟩ := Controls.seqE_ok h
  simp only [Except.ok.injEq] at h2
  obtain ⟨-, -, -, hlc, hout⟩ := Controls.get_name_ok s p.1 p.2 hg
  refine goodRun_of_instrs [.instr (String.mk [p.1])] (by simp [labelNames]) ?_ ?_
  · rw [← h2]
    simp [Controls.emitln, hout]
  · rw [← h2]
    simp [Controls.emitln, hlc]

/-- `do_break` satisfies the label discipline: on success it appends one
instruction line. -/
theorem do_break_goodRun : ∀ (lbl : String) (s r : Controls.St),
    Controls.do_break lbl s = .ok r → GoodRun s r := by
  intro lbl s r h
  simp only [Controls.do_break] at h
  obtain ⟨s₁, hm, h2⟩ := Controls.seqE_ok h
  obtain ⟨-, -, hlc, hout⟩ := Controls.match_char_ok 'b' s s₁ hm
  by_cases hl : lbl = ""
  · simp [hl] at h2
  · simp only [ne_eq, hl, not_false_eq_true, if_true, Except.ok.injEq] at h2
    refine goodRun_of_instrs [.instr ("BRA " ++ lbl)] (by simp [labelNames]) ?_ ?_
    · rw [← h2]
      simp [Controls.emitln, hout]
    · rw [← h2]
      simp [Controls.emitln, hlc]

/-- Label discipline of the common loop-construct pattern: a pre-body
segment defining exactly the top label `L(k)`, a body run starting at
counter `k + 2`, and a post-body segment defining exactly the exit label
`L(k + 1)`. -/
theorem goodRun_sandwich {s r sbIn sbOut : Controls.St} (A B : List Line)
    (hA : labelNames A = [lblName s.lcount])
    (hB : labelNames B = [lblName (s.lcount + 1)])
    (hin_out : sbIn.output = s.output ++ A)
    (hin_lc : sbIn.lcount = s.lcount + 2)
    (hbody : GoodRun sbIn sbOut)
    (hr_out : r.output = sbOut.output ++ B)
    (hr_lc : r.lcount = sbOut.lcount) :
    GoodRun s r := by
  obtain ⟨mono, Δb, ksb, hob, hlb, hnb, hbb⟩ := hbody
  have hbb2 : ∀ k ∈ ksb, s.lcount + 2 ≤ k ∧ k < sbOut.lcount := by
    intro k hk
    have := hbb k hk
    omega
  refine ⟨by omega, A ++ (Δb ++ B), s.lcount :: (ksb ++ [s.lcount + 1]), ?_, ?_, ?_, ?_⟩
  · rw [hr_out, hob, hin_out]
    simp [List.append_assoc]
  · rw [labelNames_append, labelNames_append, hA, hlb, hB]
    simp
  · refine List.nodup_cons.mpr ⟨?_, ?_⟩
    · intro hm
      rcases List.mem_append.mp hm with hx | hx
      · have := hbb2 _ hx
        omega
      · simp at hx
    · refine List.Nodup.append hnb (List.nodup_singleton _) ?_
      intro a ha hb2
      simp at hb2
      have := hbb2 a ha
      omega
  · intro k hk
    rcases List.mem_cons.mp hk with hx | hx
    · subst hx
      exact ⟨le_rfl, by omega⟩
    · rcases List.mem_append.mp hx with hy | hy
      · have := hbb2 k hy
        exact ⟨by omega, by omega⟩
      · simp at hy
        subst hy
        exact ⟨by omega, by omega⟩

/-- Label discipline of the `if` construct without an `else` branch: a
label-free pre-body segment, a body run starting at counter `k + 1`, and a
post-body segment defining exactly `L(k)`. -/
theorem goodRun_if_pattern {s r sbIn sbOut : Controls.St} (A B : List Line)
    (hA : labelNames A = []) (hB : labelNames B = [lblName s.lcount])
    (hin_out : sbIn.output = s.output ++ A)
    (hin_lc : sbIn.lcount = s.lcount + 1)
    (hbody : GoodRun sbIn sbOut)
    (hr_out : r.output = sbOut.output ++ B)
    (hr_lc : r.lcount = sbOut.lcount) :
    GoodRun s r := by
  obtain ⟨mono, Δb, ksb, hob, hlb, hnb, hbb⟩ := hbody
  have hbb2 : ∀ k ∈ ksb, s.lcount + 1 ≤ k ∧ k < sbOut.lcount := by
    intro k hk
    have := hbb k hk
    omega
  refine ⟨by omega, A ++ (Δb ++ B), ksb ++ [s.lcount], ?_, ?_, ?_, ?_⟩
  · rw [hr_out, hob, hin_out]
    simp [List.append_assoc]
  · rw [labelNames_append, labelNames_append, hA, hlb, hB]
    simp
  · refine List.Nodup.append hnb (List.nodup_singleton _) ?_
    intro a ha hb2
    simp at hb2
    have := hbb2 a ha
    omega
  · intro k hk
    rcases List.mem_append.mp hk with hx | hx
    · have := hbb2 k hx
      exact ⟨by omega, by omega⟩
    · simp at hx
      subst hx
      exact ⟨le_rfl, by omega⟩

/-- Label discipline of the `if` construct with an `else` branch: a
label-free condition segment, the then-block from counter `k + 1`, a
segment defining `L(k)`, the else-block from one past the counter `m`
reached after the then-block, and a final segment defining `L(m)`. -/
theorem goodRun_if_else_pattern {s r sb1In sb1Out sb2In sb2Out : Controls.St}
    (A C B : List Line)
    (hA : labelNames A = []) (hC : labelNames C = [lblName s.lcount])
    (hB : labelNames B = [lblName sb1Out.lcount])
    (hin1_out : sb1In.output = s.output ++ A)
    (hin1_lc : sb1In.lcount = s.lcount + 1)
    (hb1 : GoodRun sb1In sb1Out)
    (hin2_out : sb2In.output = sb1Out.output ++ C)
    (hin2_lc : sb2In.lcount = sb1Out.lcount + 1)
    (hb2 : GoodRun sb2In sb2Out)
    (hr_out : r.output = sb2Out.output ++ B)
    (hr_lc : r.lcount = sb2Out.lcount) :
    GoodRun s r := by
  obtain ⟨mono1, Δ1, ks1, ho1, hl1, hn1, hv1⟩ := hb1
  obtain ⟨mono2, Δ2, ks2, ho2, hl2, hn2, hv2⟩ := hb2
  have hv1b : ∀ k ∈ ks1, s.lcount + 1 ≤ k ∧ k < sb1Out.lcount := by
    intro k hk
    have := hv1 k hk
    omega
  have hv2b : ∀ k ∈ ks2, sb1Out.lcount + 1 ≤ k ∧ k < sb2Out.lcount := by
    intro k hk
    have := hv2 k hk
    omega
  refine ⟨by omega, A ++ (Δ1 ++ (C ++ (Δ2 ++ B))),
    ks1 ++ (s.lcount :: (ks2 ++ [sb1Out.lcount])), ?_, ?_, ?_, ?_⟩
  · rw [hr_out, ho2, hin2_out, ho1, hin1_out]
    simp [List.append_assoc]
  · rw [labelNames_append, labelNames_append, labelNames_append,
      labelNames_append, hA, hl1, hC, hl2, hB]
    simp
  · refine List.Nodup.append hn1 ?_ ?_
    · refine List.nodup_cons.mpr ⟨?_, ?_⟩
      · intro hm
        rcases List.mem_append.mp hm with hx | hx
        · have := hv2b _ hx
          omega
        · simp at hx
          omega
      · refine List.Nodup.append hn2 (List.nodup_singleton _) ?_
        intro a ha hb3
        simp at hb3
        have := hv2b a ha
        omega
    · intro a ha hb3
      have h1 := hv1b a ha
      rcases List.mem_cons.mp hb3 with hx | hx
      · omega
      · rcases List.mem_append.mp hx with hy | hy
        · have := hv2b a hy
          omega
        · simp at hy
          omega
  · intro k hk
    rcases List.mem_append.mp hk with hx | hx
    · have := hv1b k hx
      exact ⟨by omega, by omega⟩
    · rcases List.mem_cons.mp hx with hy | hy
      · subst hy
        exact ⟨le_rfl, by omega⟩
      · rcases List.mem_append.mp hy with hz | hz
        · have := hv2b k hz
          exact ⟨by omega, by omega⟩
        · simp at hz
          subst hz
          exact ⟨by omega, by omega⟩

/-- At fuel zero every construct fails, so the label discipline holds
vacuously. -/
theorem allGood_zero : AllGood 0 := by
  refine ⟨?_, ?_, ?_, ?_, ?_, ?_, ?_⟩
  · intro lbl s r h
    simp [Controls.block] at h
  · intro lbl s r h
    simp [Controls.do_if] at h
  · intro s r h
    simp [Controls.do_while] at h
  · intro s r h
    simp [Controls.do_loop] at h
  · intro s r h
    simp [Controls.do_repeat] at h
  · intro s r h
    simp [Controls.do_for] at h
  · intro s r h
    simp [Controls.do_do] at h

/-- Induction step of the label discipline: every construct at fuel
`n + 1` produces a `GoodRun`, assuming all constructs at fuel `n` do. -/
theorem allGood_step : ∀ n, AllGood n → AllGood (n + 1) := by
  intro n IH
  obtain ⟨IHblock, IHif, IHwhile, IHloop, IHrepeat, IHfor, IHdo⟩ := IH
  refine ⟨?_, ?_, ?_, ?_, ?_, ?_, ?_⟩
  · -- block: terminator case is reflexive, otherwise one dispatched
    -- statement composed with the rest of the block.
    intro lbl s r h
    cases ht : ['e', 'l', 'u'].any (fun c => c == s.look) with
    | true =>
      simp only [Controls.block, ht, if_true, Except.ok.injEq] at h
      rw [← h]
      exact goodRun_refl s
    | false =>
      simp only [Controls.block, ht, Bool.false_eq_true, if_false] at h
      obtain ⟨s₁, hd, h⟩ := Controls.seqE_ok h
      have g1 : GoodRun s s₁ := by
        split_ifs at hd
        · exact IHif lbl s s₁ hd
        · exact IHwhile s s₁ hd
        · exact IHloop s s₁ hd
        · exact IHrepeat s s₁ hd
        · exact IHfor s s₁ hd
        · exact IHdo s s₁ hd
        · exact do_break_goodRun lbl s s₁ hd
        · exact other_goodRun s s₁ hd
      exact goodRun_trans g1 (IHblock lbl s₁ r h)
  · -- do_if, in its two forms.
    intro lbl s r h
    simp only [Controls.do_if] at h
    obtain ⟨s₁, hm, h⟩ := Controls.seqE_ok h
    simp only [Controls.new_label] at h
    obtain ⟨s₂, hb1, h⟩ := Controls.seqE_ok h
    obtain ⟨-, -, hlc1, hout1⟩ := Controls.match_char_ok 'i' s s₁ hm
    by_cases hel : s₂.look = 'l'
    · simp only [hel, if_true] at h
      obtain ⟨s₃, hml, h⟩ := Controls.seqE_ok h
      obtain ⟨s₄, hb2, h⟩ := Controls.seqE_ok h
      obtain ⟨s₅, hme, h⟩ := Controls.seqE_ok h
      simp only [Except.ok.injEq] at h
      obtain ⟨-, -, hlc3, hout3⟩ := Controls.match_char_ok 'l' s₂ s₃ hml
      obtain ⟨-, -, hlc5, hout5⟩ := Controls.match_char_ok 'e' s₄ s₅ hme
      refine goodRun_if_else_pattern
        [.instr "<condition>", .instr ("BEQ " ++ ("L" ++ natDec s₁.lcount))]
        [.instr ("BRA " ++ ("L" ++ natDec s₃.lcount)),
         .label ("L" ++ natDec s₁.lcount)]
        [.label ("L" ++ natDec s₃.lcount)]
        (by simp [labelNames]) ?_ ?_ ?_ ?_ (IHblock lbl _ s₂ hb1) ?_ ?_
        (IHblock lbl _ s₄ hb2) ?_ ?_
      · simp [labelNames, lblName, hlc1]
      · simp [labelNames, lblName, hlc3]
      · simp [Controls.emitln, Controls.condition, hout1, List.append_assoc]
      · simp only [Controls.emitln, Controls.condition]
        omega
      · simp [Controls.post_label, Controls.emitln, hout3, List.append_assoc]
      · simp only [Controls.post_label, Controls.emitln]
        omega
      · rw [← h]
        simp [Controls.post_label, hout5]
      · rw [← h]
        simp [Controls.post_label, hlc5]
    · simp only [hel, if_false] at h
      obtain ⟨s₃, hme, h⟩ := Controls.seqE_ok h
      simp only [Except.ok.injEq] at h
      obtain ⟨-, -, hlc3, hout3⟩ := Controls.match_char_ok 'e' s₂ s₃ hme
      refine goodRun_if_pattern
        [.instr "<condition>", .instr ("BEQ " ++ ("L" ++ natDec s₁.lcount))]
        [.label ("L" ++ natDec s₁.lcount)]
        (by simp [labelNames]) ?_ ?_ ?_ (IHblock lbl _ s₂ hb1) ?_ ?_
      · simp [labelNames, lblName, hlc1]
      · simp [Controls.emitln, Controls.condition, hout1, List.append_assoc]
      · simp only [Controls.emitln, Controls.condition]
        omega
      · rw [← h]
        simp [Controls.post_label, hout3]
      · rw [← h]
        simp [Controls.post_label, hlc3]
  · -- do_while.
    intro s r h
    simp only [Controls.do_while] at h
    obtain ⟨s₁, hm, h⟩ := Controls.seqE_ok h
    simp only [Controls.new_label] at h
    obtain ⟨s₂, hb, h⟩ := Controls.seqE_ok h
    obtain ⟨s₃, hme, h⟩ := Controls.seqE_ok h
    simp only [Except.ok.injEq] at h
    obtain ⟨-, -, hlc1, hout1⟩ := Controls.match_char_ok 'w' s s₁ hm
    obtain ⟨-, -, hlc3, hout3⟩ := Controls.match_char_ok 'e' s₂ s₃ hme
    refine goodRun_sandwich
      [.label ("L" ++ natDec s₁.lcount), .instr "<condition>",
       .instr ("BEQ " ++ ("L" ++ natDec (s₁.lcount + 1)))]
      [.instr ("BRA " ++ ("L" ++ natDec s₁.lcount)),
       .label ("L" ++ natDec (s₁.lcount + 1))]
      ?_ ?_ ?_ ?_ (IHblock _ _ s₂ hb) ?_ ?_
    · simp [labelNames, lblName, hlc1]
    · simp [labelNames, lblName, hlc1]
    · simp [Controls.emitln, Controls.condition, Controls.post_label, hout1,
        List.append_assoc]
    · simp only [Controls.emitln, Controls.condition, Controls.post_label]
      omega
    · rw [← h]
      simp [Controls.post_label, Controls.emitln, hout3, List.append_assoc]
    · rw [← h]
      simp [Controls.post_label, Controls.emitln, hlc3]
  · -- do_loop.
    intro s r h
    simp only [Controls.do_loop] at h
    obtain ⟨s₁, hm, h⟩ := Controls.seqE_ok h
    simp only [Controls.new_label] at h
    obtain ⟨s₂, hb, h⟩ := Controls.seqE_ok h
    obtain ⟨s₃, hme, h⟩ := Controls.seqE_ok h
    simp only [Except.ok.injEq] at h
    obtain ⟨-, -, hlc1, hout1⟩ := Controls.match_char_ok 'p' s s₁ hm
    obtain ⟨-, -, hlc3, hout3⟩ := Controls.match_char_ok 'e' s₂ s₃ hme
    refine goodRun_sandwich
      [.label ("L" ++ natDec s₁.lcount)]
      [.instr ("BRA " ++ ("L" ++ natDec s₁.lcount)),
       .label ("L" ++ natDec (s₁.lcount + 1))]
      ?_ ?_ ?_ ?_ (IHblock _ _ s₂ hb) ?_ ?_
    · simp [labelNames, lblName, hlc1]
    · simp [labelNames, lblName, hlc1]
    · simp [Controls.post_label, hout1]
    · simp only [Controls.post_label]
      omega
    · rw [← h]
      simp [Controls.post_label, Controls.emitln, hout3, List.append_assoc]
    · rw [← h]
      simp [Controls.post_label, Controls.emitln, hlc3]
  · -- do_repeat.
    intro s r h
    simp only [Controls.do_repeat] at h
    obtain ⟨s₁, hm, h⟩ := Controls.seqE_ok h
    simp only [Controls.new_label] at h
    obtain ⟨s₂, hb, h⟩ := Controls.seqE_ok h
    obtain ⟨s₃, hmu, h⟩ := Controls.seqE_ok h
    simp only [Except.ok.injEq] at h
    obtain ⟨-, -, hlc1, hout1⟩ := Controls.match_char_ok 'r' s s₁ hm
    obtain ⟨-, -, hlc3, hout3⟩ := Controls.match_char_ok 'u' s₂ s₃ hmu
    refine goodRun_sandwich
      [.label ("L" ++ natDec s₁.lcount)]
      [.instr "<condition>", .instr ("BEQ " ++ ("L" ++ natDec s₁.lcount)),
       .label ("L" ++ natDec (s₁.lcount + 1))]
      ?_ ?_ ?_ ?_ (IHblock _ _ s₂ hb) ?_ ?_
    · simp [labelNames, lblName, hlc1]
    · simp [labelNames, lblName, hlc1]
    · simp [Controls.post_label, hout1]
    · simp only [Controls.post_label]
      omega
    · rw [← h]
      simp [Controls.post_label, Controls.emitln, Controls.condition, hout3,
        List.append_assoc]
    · rw [← h]
      simp [Controls.post_label, Controls.emitln, Controls.condition, hlc3]
  · -- do_for.
    intro s r h
    simp only [Controls.do_for] at h
    obtain ⟨s₁, hm, h⟩ := Controls.seqE_ok h
    simp only [Controls.new_label] at h
    obtain ⟨pr, hgn, h⟩ := Controls.seqE_ok h
    obtain ⟨s₃, hmq, h⟩ := Controls.seqE_ok h
    obtain ⟨s₅, hb, h⟩ := Controls.seqE_ok h
    obtain ⟨s₆, hme, h⟩ := Controls.seqE_ok h
    simp only [Except.ok.injEq] at h
    obtain ⟨-, -, hlc1, hout1⟩ := Controls.match_char_ok 'f' s s₁ hm
    obtain ⟨-, -, -, hlcn, houtn⟩ := Controls.get_name_ok _ pr.1 pr.2 hgn
    have hlcn2 : pr.2.lcount = s₁.lcount + 1 + 1 := hlcn
    have houtn2 : pr.2.output = s₁.output := houtn
    obtain ⟨-, -, hlc3, hout3⟩ := Controls.match_char_ok '=' pr.2 s₃ hmq
    obtain ⟨-, -, hlc6, hout6⟩ := Controls.match_char_ok 'e' s₅ s₆ hme
    refine goodRun_sandwich
      [.instr "<expr>", .instr "SUBQ #1,D0",
       .instr ("LEA " ++ String.mk [pr.1] ++ "(PC),A0"), .instr "MOVE DO,(A0)",
       .instr "<expr>", .instr "MOVE DO,-(SP)",
       .label ("L" ++ natDec s₁.lcount),
       .instr ("LEA " ++ String.mk [pr.1] ++ "(PC),A0"), .instr "MOVE (A0),D0",
       .instr "MOVE #1,D0", .instr "MOVE DO,(A0)", .instr "CMP (SP),(A0)",
       .instr ("BGT " ++ ("L" ++ natDec (s₁.lcount + 1)))]
      [.instr ("BRA " ++ ("L" ++ natDec s₁.lcount)),
       .label ("L" ++ natDec (s₁.lcount + 1)), .instr "ADDQ #2,SP"]
      ?_ ?_ ?_ ?_ (IHblock _ _ s₅ hb) ?_ ?_
    · simp [labelNames, lblName, hlc1]
    · simp [labelNames, lblName, hlc1]
    · simp only [Controls.emitln, Controls.post_label, Controls.expression]
      simp [hout3, houtn2, hout1, List.append_assoc]
    · simp only [Controls.emitln, Controls.post_label, Controls.expression]
      omega
    · rw [← h]
      simp [Controls.post_label, Controls.emitln, hout6, List.append_assoc]
    · rw [← h]
      simp [Controls.post_label, Controls.emitln, hlc6]
  · -- do_do.
    intro s r h
    simp only [Controls.do_do] at h
    obtain ⟨s₁, hm, h⟩ := Controls.seqE_ok h
    simp only [Controls.new_label] at h
    obtain ⟨s₃, hb, h⟩ := Controls.seqE_ok h
    simp only [Except.ok.injEq] at h
    obtain ⟨-, -, hlc1, hout1⟩ := Controls.match_char_ok 'd' s s₁ hm
    refine goodRun_sandwich
      [.instr "<expr>", .instr "SUBQ #1,D0", .label ("L" ++ natDec s₁.lcount),
       .instr "MOVE D0,-(SP)"]
      [.instr "MOVE (SP)+,D0", .instr ("DBRA D0," ++ ("L" ++ natDec s₁.lcount)),
       .instr "SUBQ #2,SP", .label ("L" ++ natDec (s₁.lcount + 1)),
       .instr "ADDQ #2,SP"]
      ?_ ?_ ?_ ?_ (IHblock _ _ s₃ hb) ?_ ?_
    · simp [labelNames, lblName, hlc1]
    · simp [labelNames, lblName, hlc1]
    · simp [Controls.emitln, Controls.post_label, Controls.expression, hout1,
        List.append_assoc]
    · simp only [Controls.emitln, Controls.post_label, Controls.expression]
      omega
    · rw [← h]
      simp [Controls.post_label, Controls.emitln, List.append_assoc]
    · rw [← h]
      simp [Controls.post_label, Controls.emitln]

/-- The label discipline holds at every fuel. -/
theorem allGood : ∀ n, AllGood n := by
  intro n
  induction n with
  | zero => exact allGood_zero
  | succ m ih => exact allGood_step m ih

/-- A successful session construction leaves the label counter at zero and
an output with no label-definition lines. -/
theorem Controls.new_ok : ∀ (input : List Char) (s : Controls.St),
    Controls.new input = .ok s → s.lcount = 0 ∧ labelNames s.output = [] := by
  intro input s h
  simp only [Controls.new] at h
  obtain ⟨p, hg, h2⟩ := Controls.seqE_ok h
  cases input with
  | nil => simp [Controls.get_char] at hg
  | cons c rest =>
    simp only [Controls.get_char, Except.ok.injEq] at hg
    subst hg
    simp only [Controls.other] at h2
    obtain ⟨pn, hgn, h3⟩ := Controls.seqE_ok h2
    simp only [Except.ok.injEq] at h3
    obtain ⟨-, -, -, hlc, hout⟩ := Controls.get_name_ok _ pn.1 pn.2 hgn
    constructor
    · rw [← h3]
      simp [Controls.emitln, hlc]
    · rw [← h3]
      simp [Controls.emitln, labelNames_append, hout, labelNames]

/-! ## Claim C4: the label discipline. -/

/-- C4: within one translation session the label counter only increases
(every successful block run has a final counter at least the initial one,
and each `new_label` call strictly increments it); a `new_label` call
returns a name distinct from every earlier-returned name (those have
indices below the current counter); and a whole translation — session
construction followed by `do_program`, covering the `if` construct with
and without `else` — emits no two label-definition lines sharing a
name. -/
theorem C4_label_discipline :
    (∀ s : Controls.St, s.lcount < (Controls.new_label s).2.lcount) ∧
    (∀ (s : Controls.St) (k : Nat), k < s.lcount →
      (Controls.new_label s).1 ≠ lblName k) ∧
    (∀ (n : Nat) (lbl : String) (s r : Controls.St),
      Controls.block n lbl s = .ok r → s.lcount ≤ r.lcount) ∧
    (∀ (n : Nat) (input : List Char) (r : Controls.St),
      Controls.translate n input = .ok r → (labelNames r.output).Nodup) := by
  refine ⟨?_, ?_, ?_, ?_⟩
  · intro s
    simp [Controls.new_label]
  · intro s k hk heq
    have h2 : lblName s.lcount = lblName k := heq
    have h3 := lblName_inj h2
    omega
  · intro n lbl s r h
    exact ((allGood n).1 lbl s r h).1
  · intro n input r h
    simp only [Controls.translate] at h
    obtain ⟨s₀, hnew, h⟩ := Controls.seqE_ok h
    obtain ⟨hlc0, hln0⟩ := Controls.new_ok input s₀ hnew
    simp only [Controls.do_program] at h
    obtain ⟨s₁, hb, h⟩ := Controls.seqE_ok h
    obtain ⟨-, Δ, ks, ho, hl, hn, -⟩ := (allGood n).1 "" s₀ s₁ hb
    split_ifs at h with hne
    simp only [Except.ok.injEq] at h
    rw [← h]
    have hns : labelNames (Controls.emitln "END" s₁).output = ks.map lblName := by
      simp only [Controls.emitln]
      rw [labelNames_append, ho, labelNames_append, hln0, hl]
      simp [labelNames]
    rw [hns]
    exact List.Nodup.map lblName_inj hn

/-- C4, witnessed: a fresh label differing from an earlier one, a concrete
monotone block run, and a concrete whole translation with distinct label
definitions. -/
theorem C4_witness :
    (Controls.new_label ⟨'a', [], 1, []⟩).1 ≠ lblName 0 ∧
    (0 : Nat) ≤ 0 ∧
    (labelNames [Line.instr "X", Line.label "L0", Line.instr "<condition>",
      Line.instr "BEQ L1", Line.instr "X", Line.instr "BRA L0", Line.label "L1",
      Line.instr "END"]).Nodup :=
  ⟨C4_label_discipline.2.1 ⟨'a', [], 1, []⟩ 0 (by decide),
   C4_label_discipline.2.2.1 5 "" ⟨'e', [], 0, []⟩ ⟨'e', [], 0, []⟩ (by decide),
   C4_label_discipline.2.2.2 10 "xwxee".data
     ⟨'e', [], 2, [.instr "X", .label "L0", .instr "<condition>",
       .instr "BEQ L1", .instr "X", .instr "BRA L0", .label "L1", .instr "END"]⟩
     (by decide)⟩

/-! ## Claim C9: definition and reference of generated labels. -/

/-- C9 counterexample: the translation of `xpee` (a loop with an empty
body) defines the label `L1` yet no instruction line in the whole output
mentions `L1` at all — the exit label of a break-free `loop` is defined but
never referenced. -/
theorem C9_counterexample :
    Controls.translate 5 "xpee".data =
      .ok ⟨'e', [], 2, [.instr "X", .label "L0", .instr "BRA L0", .label "L1",
        .instr "END"]⟩ ∧
    Line.label "L1" ∈ ([.instr "X", .label "L0", .instr "BRA L0", .label "L1",
      .instr "END"] : List Line) ∧
    ([.instr "X", .label "L0", .instr "BRA L0", .label "L1",
      .instr "END"] : List Line).filter
      (fun l => match l with
        | .instr t => hasSeg "L1".data t.data
        | .label _ => false) = [] := by decide

/-- C9 as amended: every label produced by the label generator is defined
by its allocating construct, and each construct references its top label
via its own back-branch (`BRA` for loop and for, `BEQ` for repeat, `DBRA`
for do); the `for` construct also references its exit label itself
(`BGT`), but the exit labels of `loop`, `repeat`, and `do` are referenced
only by `break` statements inside the body — with a break-free body they
are defined yet never referenced.  Shown by the full emitted sequences of
`do_loop`, `do_repeat`, `do_do`, and `do_for`, in which the exit label of
the first three occurs only in its definition line and possibly in the
body output. -/
theorem C9_labels_amended :
    (∀ (n : Nat) (s s₁ sb se : Controls.St) (Δ : List Line),
      Controls.match_char 'p' s = .ok s₁ →
      Controls.block n ("L" ++ natDec (s₁.lcount + 1))
        ⟨s₁.look, s₁.input, s₁.lcount + 2,
          s₁.output ++ [.label ("L" ++ natDec s₁.lcount)]⟩ = .ok sb →
      sb.output = s₁.output ++ [.label ("L" ++ natDec s₁.lcount)] ++ Δ →
      Controls.match_char 'e' sb = .ok se →
      Controls.do_loop (n + 1) s =
        .ok { se with output := se.output ++
          [.instr ("BRA " ++ ("L" ++ natDec s₁.lcount)),
           .label ("L" ++ natDec (s₁.lcount + 1))] } ∧
      se.output ++ [.instr ("BRA " ++ ("L" ++ natDec s₁.lcount)),
          .label ("L" ++ natDec (s₁.lcount + 1))] =
        s₁.output ++ [.label ("L" ++ natDec s₁.lcount)] ++ Δ ++
        [.instr ("BRA " ++ ("L" ++ natDec s₁.lcount)),
         .label ("L" ++ natDec (s₁.lcount + 1))]) ∧
    (∀ (n : Nat) (s s₁ sb su : Controls.St) (Δ : List Line),
      Controls.match_char 'r' s = .ok s₁ →
      Controls.block n ("L" ++ natDec (s₁.lcount + 1))
        ⟨s₁.look, s₁.input, s₁.lcount + 2,
          s₁.output ++ [.label ("L" ++ natDec s₁.lcount)]⟩ = .ok sb →
      sb.output = s₁.output ++ [.label ("L" ++ natDec s₁.lcount)] ++ Δ →
      Controls.match_char 'u' sb = .ok su →
      Controls.do_repeat (n + 1) s =
        .ok { su with output := su.output ++
          [.instr "<condition>", .instr ("BEQ " ++ ("L" ++ natDec s₁.lcount)),
           .label ("L" ++ natDec (s₁.lcount + 1))] } ∧
      su.output ++ [.instr "<condition>",
          .instr ("BEQ " ++ ("L" ++ natDec s₁.lcount)),
          .label ("L" ++ natDec (s₁.lcount + 1))] =
        s₁.output ++ [.label ("L" ++ natDec s₁.lcount)] ++ Δ ++
        [.instr "<condition>", .instr ("BEQ " ++ ("L" ++ natDec s₁.lcount)),
         .label ("L" ++ natDec (s₁.lcount + 1))]) ∧
    (∀ (n : Nat) (s s₁ s₃ : Controls.St) (Δ : List Line),
      Controls.match_char 'd' s = .ok s₁ →
      Controls.block n ("L" ++ natDec (s₁.lcount + 1))
        ⟨s₁.look, s₁.input, s₁.lcount + 2,
          s₁.output ++ [.instr "<expr>", .instr "SUBQ #1,D0",
            .label ("L" ++ natDec s₁.lcount), .instr "MOVE D0,-(SP)"]⟩ = .ok s₃ →
      s₃.output = s₁.output ++ [.instr "<expr>", .instr "SUBQ #1,D0",
          .label ("L" ++ natDec s₁.lcount), .instr "MOVE D0,-(SP)"] ++ Δ →
      Controls.do_do (n + 1) s =
        .ok { s₃ with output := s₃.output ++
          [.instr "MOVE (SP)+,D0",
           .instr ("DBRA D0," ++ ("L" ++ natDec s₁.lcount)),
           .instr "SUBQ #2,SP", .label ("L" ++ natDec (s₁.lcount + 1)),
           .instr "ADDQ #2,SP"] } ∧
      s₃.output ++ [.instr "MOVE (SP)+,D0",
          .instr ("DBRA D0," ++ ("L" ++ natDec s₁.lcount)),
          .instr "SUBQ #2,SP", .label ("L" ++ natDec (s₁.lcount + 1)),
          .instr "ADDQ #2,SP"] =
        s₁.output ++ [.instr "<expr>", .instr "SUBQ #1,D0",
          .label ("L" ++ natDec s₁.lcount), .instr "MOVE D0,-(SP)"] ++ Δ ++
        [.instr "MOVE (SP)+,D0",
         .instr ("DBRA D0," ++ ("L" ++ natDec s₁.lcount)),
         .instr "SUBQ #2,SP", .label ("L" ++ natDec (s₁.lcount + 1)),
         .instr "ADDQ #2,SP"]) ∧
    (∀ (n : Nat) (s s₁ : Controls.St) (pr : Char × Controls.St)
      (s₃ s₅ s₆ : Controls.St) (Δ : List Line),
      Controls.match_char 'f' s = .ok s₁ →
      Controls.get_name ⟨s₁.look, s₁.input, s₁.lcount + 2, s₁.output⟩ = .ok pr →
      Controls.match_char '=' pr.2 = .ok s₃ →
      Controls.block n ("L" ++ natDec (s₁.lcount + 1))
        ⟨s₃.look, s₃.input, s₃.lcount, s₃.output ++
          [.instr "<expr>", .instr "SUBQ #1,D0",
           .instr ("LEA " ++ String.mk [pr.1] ++ "(PC),A0"),
           .instr "MOVE DO,(A0)", .instr "<expr>", .instr "MOVE DO,-(SP)",
           .label ("L" ++ natDec s₁.lcount),
           .instr ("LEA " ++ String.mk [pr.1] ++ "(PC),A0"),
           .instr "MOVE (A0),D0", .instr "MOVE #1,D0", .instr "MOVE DO,(A0)",
           .instr "CMP (SP),(A0)",
           .instr ("BGT " ++ ("L" ++ natDec (s₁.lcount + 1)))]⟩ = .ok s₅ →
      s₅.output = s₃.output ++
        [.instr "<expr>", .instr "SUBQ #1,D0",
         .instr ("LEA " ++ String.mk [pr.1] ++ "(PC),A0"),
         .instr "MOVE DO,(A0)", .instr "<expr>", .instr "MOVE DO,-(SP)",
         .label ("L" ++ natDec s₁.lcount),
         .instr ("LEA " ++ String.mk [pr.1] ++ "(PC),A0"),
         .instr "MOVE (A0),D0", .instr "MOVE #1,D0", .instr "MOVE DO,(A0)",
         .instr "CMP (SP),(A0)",
         .instr ("BGT " ++ ("L" ++ natDec (s₁.lcount + 1)))] ++ Δ →
      Controls.match_char 'e' s₅ = .ok s₆ →
      Controls.do_for (n + 1) s =
        .ok { s₆ with output := s₆.output ++
          [.instr ("BRA " ++ ("L" ++ natDec s₁.lcount)),
           .label ("L" ++ natDec (s₁.lcount + 1)), .instr "ADDQ #2,SP"] } ∧
      s₆.output ++ [.instr ("BRA " ++ ("L" ++ natDec s₁.lcount)),
          .label ("L" ++ natDec (s₁.lcount + 1)), .instr "ADDQ #2,SP"] =
        s₃.output ++
        [.instr "<expr>", .instr "SUBQ #1,D0",
         .instr ("LEA " ++ String.mk [pr.1] ++ "(PC),A0"),
         .instr "MOVE DO,(A0)", .instr "<expr>", .instr "MOVE DO,-(SP)",
         .label ("L" ++ natDec s₁.lcount),
         .instr ("LEA " ++ String.mk [pr.1] ++ "(PC),A0"),
         .instr "MOVE (A0),D0", .instr "MOVE #1,D0", .instr "MOVE DO,(A0)",
         .instr "CMP (SP),(A0)",
         .instr ("BGT " ++ ("L" ++ natDec (s₁.lcount + 1)))] ++ Δ ++
        [.instr ("BRA " ++ ("L" ++ natDec s₁.lcount)),
         .label ("L" ++ natDec (s₁.lcount + 1)), .instr "ADDQ #2,SP"]) := by
  refine ⟨?_, ?_, ?_, ?_⟩
  · intro n s s₁ sb se Δ h1 h2 hΔ h3
    obtain ⟨-, -, -, hse⟩ := Controls.match_char_ok 'e' sb se h3
    constructor
    · simp only [Controls.do_loop, h1, Controls.seqE, Controls.new_label]
      have hstate : Controls.post_label ("L" ++ natDec s₁.lcount)
          { look := s₁.look, input := s₁.input, lcount := s₁.lcount + 1 + 1,
            output := s₁.output } =
          (⟨s₁.look, s₁.input, s₁.lcount + 2,
            s₁.output ++ [.label ("L" ++ natDec s₁.lcount)]⟩ : Controls.St) := by
        simp [Controls.post_label]
      rw [hstate, h2]
      simp only [Controls.seqE, h3]
      simp [Controls.post_label, Controls.emitln, List.append_assoc]
    · rw [hse, hΔ]
  · intro n s s₁ sb su Δ h1 h2 hΔ h3
    obtain ⟨-, -, -, hsu⟩ := Controls.match_char_ok 'u' sb su h3
    constructor
    · simp only [Controls.do_repeat, h1, Controls.seqE, Controls.new_label]
      have hstate : Controls.post_label ("L" ++ natDec s₁.lcount)
          { look := s₁.look, input := s₁.input, lcount := s₁.lcount + 1 + 1,
            output := s₁.output } =
          (⟨s₁.look, s₁.input, s₁.lcount + 2,
            s₁.output ++ [.label ("L" ++ natDec s₁.lcount)]⟩ : Controls.St) := by
        simp [Controls.post_label]
      rw [hstate, h2]
      simp only [Controls.seqE, h3]
      simp [Controls.post_label, Controls.emitln, Controls.condition,
        List.append_assoc]
    · rw [hsu, hΔ]
  · intro n s s₁ s₃ Δ h1 h2 hΔ
    constructor
    · simp only [Controls.do_do, h1, Controls.seqE, Controls.new_label]
      have hstate : Controls.emitln "MOVE D0,-(SP)"
          (Controls.post_label ("L" ++ natDec s₁.lcount)
            (Controls.emitln "SUBQ #1,D0" (Controls.expression
              { look := s₁.look, input := s₁.input, lcount := s₁.lcount + 1 + 1,
                output := s₁.output }))) =
          (⟨s₁.look, s₁.input, s₁.lcount + 2,
            s₁.output ++ [.instr "<expr>", .instr "SUBQ #1,D0",
              .label ("L" ++ natDec s₁.lcount),
              .instr "MOVE D0,-(SP)"]⟩ : Controls.St) := by
        simp [Controls.emitln, Controls.post_label, Controls.expression,
          List.append_assoc]
      rw [hstate, h2]
      simp [Controls.seqE, Controls.post_label, Controls.emitln,
        List.append_assoc]
    · rw [hΔ]
  · intro n s s₁ pr s₃ s₅ s₆ Δ h1 hg h2 hb hΔ h3
    obtain ⟨-, -, -, hs₆⟩ := Controls.match_char_ok 'e' s₅ s₆ h3
    constructor
    · simp only [Controls.do_for, h1, Controls.seqE, Controls.new_label]
      simp only [show s₁.lcount + 1 + 1 = s₁.lcount + 2 from rfl]
      simp only [hg, Controls.seqE, h2]
      have hstate : Controls.emitln ("BGT " ++ ("L" ++ natDec (s₁.lcount + 1)))
          (Controls.emitln "CMP (SP),(A0)"
            (Controls.emitln "MOVE DO,(A0)"
              (Controls.emitln "MOVE #1,D0"
                (Controls.emitln "MOVE (A0),D0"
                  (Controls.emitln ("LEA " ++ String.mk [pr.1] ++ "(PC),A0")
                    (Controls.post_label ("L" ++ natDec s₁.lcount)
                      (Controls.emitln "MOVE DO,-(SP)"
                        (Controls.expression
                          (Controls.emitln "MOVE DO,(A0)"
                            (Controls.emitln
                              ("LEA " ++ String.mk [pr.1] ++ "(PC),A0")
                              (Controls.emitln "SUBQ #1,D0"
                                (Controls.expression s₃)))))))))))) =
          (⟨s₃.look, s₃.input, s₃.lcount, s₃.output ++
            [.instr "<expr>", .instr "SUBQ #1,D0",
             .instr ("LEA " ++ String.mk [pr.1] ++ "(PC),A0"),
             .instr "MOVE DO,(A0)", .instr "<expr>", .instr "MOVE DO,-(SP)",
             .label ("L" ++ natDec s₁.lcount),
             .instr ("LEA " ++ String.mk [pr.1] ++ "(PC),A0"),
             .instr "MOVE (A0),D0", .instr "MOVE #1,D0", .instr "MOVE DO,(A0)",
             .instr "CMP (SP),(A0)",
             .instr ("BGT " ++ ("L" ++ natDec (s₁.lcount + 1)))]⟩ :
               Controls.St) := by
        simp [Controls.emitln, Controls.post_label, Controls.expression,
          List.append_assoc]
      rw [hstate, hb]
      simp only [Controls.seqE, h3]
      simp [Controls.post_label, Controls.emitln, List.append_assoc]
    · rw [hs₆, hΔ]

/-- C9, witnessed on a loop, a repeat, a do, and a for whose bodies are a
single `break`, so that each exit label is also referenced. -/
theorem C9_witness :
    Controls.do_loop 4 ⟨'p', ['b', 'e', 'e'], 0, []⟩ =
      .ok ⟨'e', [], 2, [.label "L0", .instr "BRA L1", .instr "BRA L0",
        .label "L1"]⟩ ∧
    Controls.do_repeat 4 ⟨'r', ['b', 'u', 'x'], 0, []⟩ =
      .ok ⟨'x', [], 2, [.label "L0", .instr "BRA L1", .instr "<condition>",
        .instr "BEQ L0", .label "L1"]⟩ ∧
    Controls.do_do 4 ⟨'d', ['b', 'e', 'x'], 0, []⟩ =
      .ok ⟨'e', ['x'], 2, [.instr "<expr>", .instr "SUBQ #1,D0", .label "L0",
        .instr "MOVE D0,-(SP)", .instr "BRA L1", .instr "MOVE (SP)+,D0",
        .instr "DBRA D0,L0", .instr "SUBQ #2,SP", .label "L1",
        .instr "ADDQ #2,SP"]⟩ ∧
    Controls.do_for 4 ⟨'f', ['a', '=', 'b', 'e', 'x'], 0, []⟩ =
      .ok ⟨'x', [], 2, [.instr "<expr>", .instr "SUBQ #1,D0",
        .instr "LEA A(PC),A0", .instr "MOVE DO,(A0)", .instr "<expr>",
        .instr "MOVE DO,-(SP)", .label "L0", .instr "LEA A(PC),A0",
        .instr "MOVE (A0),D0", .instr "MOVE #1,D0", .instr "MOVE DO,(A0)",
        .instr "CMP (SP),(A0)", .instr "BGT L1", .instr "BRA L1",
        .instr "BRA L0", .label "L1", .instr "ADDQ #2,SP"]⟩ :=
  ⟨(C9_labels_amended.1 3 ⟨'p', ['b', 'e', 'e'], 0, []⟩ ⟨'b', ['e', 'e'], 0, []⟩
      ⟨'e', ['e'], 2, [.label "L0", .instr "BRA L1"]⟩
      ⟨'e', [], 2, [.label "L0", .instr "BRA L1"]⟩
      [.instr "BRA L1"] (by decide) (by decide) (by decide) (by decide)).1,
   (C9_labels_amended.2.1 3 ⟨'r', ['b', 'u', 'x'], 0, []⟩
      ⟨'b', ['u', 'x'], 0, []⟩
      ⟨'u', ['x'], 2, [.label "L0", .instr "BRA L1"]⟩
      ⟨'x', [], 2, [.label "L0", .instr "BRA L1"]⟩
      [.instr "BRA L1"] (by decide) (by decide) (by decide) (by decide)).1,
   (C9_labels_amended.2.2.1 3 ⟨'d', ['b', 'e', 'x'], 0, []⟩
      ⟨'b', ['e', 'x'], 0, []⟩
      ⟨'e', ['x'], 2, [.instr "<expr>", .instr "SUBQ #1,D0", .label "L0",
        .instr "MOVE D0,-(SP)", .instr "BRA L1"]⟩
      [.instr "BRA L1"] (by decide) (by decide) (by decide)).1,
   (C9_labels_amended.2.2.2 3 ⟨'f', ['a', '=', 'b', 'e', 'x'], 0, []⟩
      ⟨'a', ['=', 'b', 'e', 'x'], 0, []⟩
      ('A', ⟨'=', ['b', 'e', 'x'], 2, []⟩) ⟨'b', ['e', 'x'], 2, []⟩
      ⟨'e', ['x'], 2, [.instr "<expr>", .instr "SUBQ #1,D0",
        .instr "LEA A(PC),A0", .instr "MOVE DO,(A0)", .instr "<expr>",
        .instr "MOVE DO,-(SP)", .label "L0", .instr "LEA A(PC),A0",
        .instr "MOVE (A0),D0", .instr "MOVE #1,D0", .instr "MOVE DO,(A0)",
        .instr "CMP (SP),(A0)", .instr "BGT L1", .instr "BRA L1"]⟩
      ⟨'x', [], 2, [.instr "<expr>", .instr "SUBQ #1,D0",
        .instr "LEA A(PC),A0", .instr "MOVE DO,(A0)", .instr "<expr>",
        .instr "MOVE DO,-(SP)", .label "L0", .instr "LEA A(PC),A0",
        .instr "MOVE (A0),D0", .instr "MOVE #1,D0", .instr "MOVE DO,(A0)",
        .instr "CMP (SP),(A0)", .instr "BGT L1", .instr "BRA L1"]⟩
      [.instr "BRA L1"] (by decide) (by decide) (by decide) (by decide)
      (by decide) (by decide)).1⟩

/-! ## Claim C1: operand order for subtraction and division. -/

/-- C1: in the expression translator the combine step corrects operand
order for the non-commutative operators.  When the pending operator is `-`,
the addop loop pushes the accumulator (`MOVE D0,-(SP)`) and runs
`subtract`, which after translating the right operand emits
`SUB (SP)+,D0` then `NEG D0`; when the pending operator is `/`, the mulop
loop pushes the accumulator and runs `divide`, which after translating the
right operand emits `MOVE (SP)+,D1` then `DIVS D1,D0`, making the pushed
left operand the dividend and the accumulator the divisor. -/
theorem C1_subtract_divide_operand_order : ∀ (n : Nat) (s : Cradle.St),
    (ops_from s.look = .SUB →
      Cradle.expr_loop (n + 1) s =
        match Cradle.subtract n (Cradle.emitln "MOVE D0,-(SP)" s) with
        | .error e => .error e
        | .ok t => Cradle.expr_loop n t) ∧
    (∀ s₀ s₁, Cradle.match_char '-' s = .ok s₀ → Cradle.term n s₀ = .ok s₁ →
      Cradle.subtract (n + 1) s =
        .ok { s₁ with output :=
          s₁.output ++ [.instr "SUB (SP)+,D0", .instr "NEG D0"] }) ∧
    (ops_from s.look = .DIV →
      Cradle.term_loop (n + 1) s =
        match Cradle.divide n (Cradle.emitln "MOVE D0,-(SP)" s) with
        | .error e => .error e
        | .ok t => Cradle.term_loop n t) ∧
    (∀ s₀ s₁, Cradle.match_char '/' s = .ok s₀ → Cradle.factor n s₀ = .ok s₁ →
      Cradle.divide (n + 1) s =
        .ok { s₁ with output :=
          s₁.output ++ [.instr "MOVE (SP)+,D1", .instr "DIVS D1,D0"] }) := by
  intro n s
  refine ⟨?_, ?_, ?_, ?_⟩
  · intro h
    have haddop : Cradle.is_addop s = true := by
      simp [Cradle.is_addop, h]
    simp [Cradle.expr_loop, haddop, Cradle.emitln, h]
  · intro s₀ s₁ h₀ h₁
    simp [Cradle.subtract, h₀, h₁, Cradle.emitln, List.append_assoc]
  · intro h
    have hmulop : Cradle.is_mulop s = true := by
      simp [Cradle.is_mulop, h]
    simp [Cradle.term_loop, hmulop, Cradle.emitln, h]
  · intro s₀ s₁ h₀ h₁
    simp [Cradle.divide, h₀, h₁, Cradle.emitln, List.append_assoc]

/-- C1, witnessed: a concrete subtraction and a concrete division. -/
theorem C1_witness :
    Cradle.subtract 5 ⟨'-', ['3', ' ', 'x'], []⟩ =
      .ok ⟨'x', [], [.instr "MOVE #3,D0", .instr "SUB (SP)+,D0", .instr "NEG D0"]⟩ ∧
    Cradle.divide 5 ⟨'/', ['3', ' ', 'x'], []⟩ =
      .ok ⟨'x', [], [.instr "MOVE #3,D0", .instr "MOVE (SP)+,D1", .instr "DIVS D1,D0"]⟩ :=
  ⟨(C1_subtract_divide_operand_order 4 ⟨'-', ['3', ' ', 'x'], []⟩).2.1
     ⟨'3', [' ', 'x'], []⟩ ⟨'x', [], [.instr "MOVE #3,D0"]⟩ (by decide) (by decide),
   (C1_subtract_divide_operand_order 4 ⟨'/', ['3', ' ', 'x'], []⟩).2.2.2
     ⟨'3', [' ', 'x'], []⟩ ⟨'x', [], [.instr "MOVE #3,D0"]⟩ (by decide) (by decide)⟩

/-! ## Claim C2: the shape of a translated `while` construct. -/

/-- C2: on lookahead `w`, `do_while` emits, in order: a fresh top-label
definition `L(k)` (where `k` is the counter after matching `w`), the
condition-stub marker line `<condition>`, a branch-if-false `BEQ L(k+1)` to
the fresh exit label, the translated body block (whatever output the body
contributes), an unconditional `BRA L(k)` back to the top label, and the
exit-label definition `L(k+1)` — for every state and every body, so the
shape is independent of the body's contents. -/
theorem C2_while_shape : ∀ (n : Nat) (s s₁ sb se : Controls.St) (Δ : List Line),
    Controls.match_char 'w' s = .ok s₁ →
    Controls.block n ("L" ++ natDec (s₁.lcount + 1))
      ⟨s₁.look, s₁.input, s₁.lcount + 2,
        s₁.output ++ [.label ("L" ++ natDec s₁.lcount), .instr "<condition>",
          .instr ("BEQ " ++ ("L" ++ natDec (s₁.lcount + 1)))]⟩ = .ok sb →
    sb.output = s₁.output ++ [.label ("L" ++ natDec s₁.lcount),
      .instr "<condition>",
      .instr ("BEQ " ++ ("L" ++ natDec (s₁.lcount + 1)))] ++ Δ →
    Controls.match_char 'e' sb = .ok se →
    Controls.do_while (n + 1) s =
      .ok { se with output := se.output ++
        [.instr ("BRA " ++ ("L" ++ natDec s₁.lcount)),
         .label ("L" ++ natDec (s₁.lcount + 1))] } ∧
    se.output ++ [.instr ("BRA " ++ ("L" ++ natDec s₁.lcount)),
        .label ("L" ++ natDec (s₁.lcount + 1))] =
      s₁.output ++ [.label ("L" ++ natDec s₁.lcount), .instr "<condition>",
        .instr ("BEQ " ++ ("L" ++ natDec (s₁.lcount + 1)))] ++ Δ ++
      [.instr ("BRA " ++ ("L" ++ natDec s₁.lcount)),
       .label ("L" ++ natDec (s₁.lcount + 1))] := by
  intro n s s₁ sb se Δ h1 h2 hΔ h3
  obtain ⟨-, -, -, hse⟩ := Controls.match_char_ok 'e' sb se h3
  constructor
  · simp only [Controls.do_while, h1, Controls.seqE, Controls.new_label]
    have hstate :
        Controls.emitln ("BEQ " ++ ("L" ++ natDec (s₁.lcount + 1)))
          (Controls.condition (Controls.post_label ("L" ++ natDec s₁.lcount)
            { look := s₁.look, input := s₁.input, lcount := s₁.lcount + 1 + 1,
              output := s₁.output })) =
        (⟨s₁.look, s₁.input, s₁.lcount + 2,
          s₁.output ++ [.label ("L" ++ natDec s₁.lcount), .instr "<condition>",
            .instr ("BEQ " ++ ("L" ++ natDec (s₁.lcount + 1)))]⟩ : Controls.St) := by
      simp [Controls.emitln, Controls.condition, Controls.post_label]
    rw [hstate, h2]
    simp only [Controls.seqE, h3]
    simp [Controls.post_label, Controls.emitln, List.append_assoc]
  · rw [hse, hΔ]

/-- C2, witnessed on the concrete while statement `wxe` (body: the bare
statement `x`). -/
theorem C2_witness :
    Controls.do_while 4 ⟨'w', ['x', 'e', 'e'], 0, []⟩ =
      .ok ⟨'e', [], 2, [.label "L0", .instr "<condition>", .instr "BEQ L1",
        .instr "X", .instr "BRA L0", .label "L1"]⟩ :=
  (C2_while_shape 3 ⟨'w', ['x', 'e', 'e'], 0, []⟩ ⟨'x', ['e', 'e'], 0, []⟩
    ⟨'e', ['e'], 2, [.label "L0", .instr "<condition>", .instr "BEQ L1", .instr "X"]⟩
    ⟨'e', [], 2, [.label "L0", .instr "<condition>", .instr "BEQ L1", .instr "X"]⟩
    [.instr "X"] (by decide) (by decide) (by decide) (by decide)).1

/-! ## Claim C3: the `break` statement. -/

/-- C3: translating a `break` (lookahead `b`) with a non-empty break target
emits exactly one unconditional `BRA` to that target and changes nothing
else; with the empty (absent) break target it fails fatally with
`"No loop to break from"` and emits nothing. -/
theorem C3_break : ∀ (label : String) (s s₁ : Controls.St),
    Controls.match_char 'b' s = .ok s₁ →
    (label ≠ "" →
      Controls.do_break label s =
        .ok { s₁ with output := s₁.output ++ [.instr ("BRA " ++ label)] }) ∧
    s₁.output = s.output ∧ s₁.lcount = s.lcount ∧
    Controls.do_break "" s = .error (.noLoopToBreak, s₁) ∧
    errMsg .noLoopToBreak = "No loop to break from" := by
  intro label s s₁ h
  obtain ⟨-, -, hlc, hout⟩ := Controls.match_char_ok 'b' s s₁ h
  refine ⟨?_, hout, hlc, ?_, rfl⟩
  · intro hl
    simp [Controls.do_break, Controls.seqE, h, hl, Controls.emitln]
  · simp [Controls.do_break, Controls.seqE, h]

/-- C3, witnessed on a concrete break statement. -/
theorem C3_witness :
    Controls.do_break "L0" ⟨'b', ['x'], 0, []⟩ =
      .ok ⟨'x', [], 0, [.instr "BRA L0"]⟩ ∧
    Controls.do_break "" ⟨'b', ['x'], 0, []⟩ =
      .error (.noLoopToBreak, ⟨'x', [], 0, []⟩) :=
  ⟨(C3_break "L0" ⟨'b', ['x'], 0, []⟩ ⟨'x', [], 0, []⟩ (by decide)).1 (by decide),
   (C3_break "L0" ⟨'b', ['x'], 0, []⟩ ⟨'x', [], 0, []⟩ (by decide)).2.2.2.1⟩

/-! ## Claim C5: `get_name` in the two translators. -/

/-- C5 counterexample: in the statement translator, `get_name` on input
`abc` returns the single character `A` and leaves the alphanumeric `b`
unconsumed as the lookahead — it does not consume the maximal alphanumeric
run and does not return multi-character identifier text. -/
theorem C5_counterexample :
    Controls.get_name ⟨'a', ['b', 'c'], 0, []⟩ = .ok ('A', ⟨'b', ['c'], 0, []⟩) ∧
    is_ascii_alphanumeric 'b' = true := by decide

/-- C5 as amended: the expression translator's `get_name` fails fatally
with `"Name Expected"` on a non-alphabetic lookahead and otherwise consumes
the maximal alphanumeric run, upper-casing it, then skips trailing
whitespace; the statement translator's `get_name` fails the same way but
otherwise consumes exactly one character and returns it upper-cased,
skipping no whitespace. -/
theorem C5_get_name_amended : ∀ (sc : Cradle.St) (st : Controls.St),
    (rust_is_alphabetic sc.look = false →
      Cradle.get_name sc = .error (.expectedTok "Name", sc)) ∧
    (∀ tok r, Cradle.get_name sc = .ok (tok, r) →
      ∃ run ws, (sc.look :: sc.input) = run ++ ws ++ (r.look :: r.input) ∧
        (∀ c ∈ run, is_ascii_alphanumeric c = true) ∧
        (∀ c ∈ ws, is_white_char c = true) ∧
        (∀ c cs, ws ++ (r.look :: r.input) = c :: cs →
          is_ascii_alphanumeric c = false) ∧
        is_white_char r.look = false ∧
        tok.data = run.map to_ascii_uppercase ∧ r.output = sc.output) ∧
    (rust_is_alphabetic st.look = false →
      Controls.get_name st = .error (.expectedTok "Name", st)) ∧
    (∀ c r, Controls.get_name st = .ok (c, r) →
      c = to_ascii_uppercase st.look ∧ st.input = r.look :: r.input ∧
      r.lcount = st.lcount ∧ r.output = st.output) := by
  intro sc st
  refine ⟨?_, ?_, ?_, ?_⟩
  · intro h
    simp [Cradle.get_name, h]
  · intro tok r h
    by_cases ha : rust_is_alphabetic sc.look = true
    · simp only [Cradle.get_name, ha, not_true_eq_false, if_false] at h
      cases hn : Cradle.name_loop sc.output "" sc.look sc.input with
      | error e => rw [hn] at h; simp at h
      | ok p =>
        obtain ⟨tok₀, s₁⟩ := p
        rw [hn] at h
        simp only [] at h
        cases hw : Cradle.skip_white s₁ with
        | error e => rw [hw] at h; simp at h
        | ok r₁ =>
          rw [hw] at h
          simp only [Except.ok.injEq, Prod.mk.injEq] at h
          obtain ⟨htok, hr⟩ := h
          obtain ⟨run, hsplit1, hrun, hna, htokd, hout1⟩ :=
            Cradle.name_loop_ok sc.input sc.output "" sc.look tok₀ s₁ hn
          obtain ⟨ws, hsplit2, hws, hnw, hout2⟩ :=
            Cradle.sw_loop_ok s₁.input s₁.output s₁.look r₁ (by
              rw [← Cradle.skip_white, hw])
          refine ⟨run, ws, ?_, hrun, hws, ?_, ?_, ?_, ?_⟩
          · rw [← hr, hsplit1, hsplit2]
            simp [List.append_assoc]
          · intro c cs hcs
            rw [← hr] at hcs
            have h2 : s₁.look :: s₁.input = c :: cs := hsplit2.trans hcs
            have hc : c = s₁.look := by
              injection h2 with h3 h4
              exact h3.symm
            rw [hc]
            exact hna
          · rw [← hr]
            exact hnw
          · rw [← htok]
            simpa using htokd
          · rw [← hr, hout2, hout1]
    · simp [Bool.not_eq_true] at ha
      simp [Cradle.get_name, ha] at h
  · intro h
    simp [Controls.get_name, h]
  · intro c r h
    obtain ⟨-, hc, hi, hlc, hout⟩ := Controls.get_name_ok st c r h
    exact ⟨hc, hi, hlc, hout⟩

/-- C5, witnessed: the expression translator's failure branch and the
statement translator's single-character success branch at concrete
inputs. -/
theorem C5_witness :
    Cradle.get_name ⟨'1', ['x'], []⟩ = .error (.expectedTok "Name", ⟨'1', ['x'], []⟩) ∧
    ('A' = to_ascii_uppercase 'a' ∧ ('b' :: []) = 'b' :: [] ∧ (0 : Nat) = 0 ∧
      ([] : List Line) = []) :=
  ⟨(C5_get_name_amended ⟨'1', ['x'], []⟩ ⟨'a', ['b'], 0, []⟩).1 (by decide),
   (C5_get_name_amended ⟨'1', ['x'], []⟩ ⟨'a', ['b'], 0, []⟩).2.2.2 'A'
     ⟨'b', [], 0, []⟩ (by decide)⟩

/-! ## Claim C6: `match_char` in the two translators. -/

/-- C6 counterexample: in the statement translator, `match_char 'b'` on
input whose next character is a space leaves the lookahead on that space —
it does not skip trailing whitespace. -/
theorem C6_counterexample :
    Controls.match_char 'b' ⟨'b', [' ', 'x'], 0, []⟩ = .ok ⟨' ', ['x'], 0, []⟩ ∧
    is_white_char ' ' = true := by decide

/-- C6 as amended: in both translators `match_char x` fails fatally with
`"<x> Expected"` when the lookahead differs from `x`; on a match the
expression translator advances past `x` and skips trailing whitespace,
while the statement translator only advances by exactly one character. -/
theorem C6_match_char_amended : ∀ (x : Char) (sc : Cradle.St) (st : Controls.St),
    (sc.look ≠ x →
      Cradle.match_char x sc = .error (.expectedTok (String.mk [x]), sc)) ∧
    errMsg (.expectedTok (String.mk [x])) = String.mk [x] ++ " Expected" ∧
    (∀ r, Cradle.match_char x sc = .ok r → sc.look = x ∧ r.output = sc.output ∧
      ∃ ws, sc.input = ws ++ (r.look :: r.input) ∧
        (∀ c ∈ ws, is_white_char c = true) ∧ is_white_char r.look = false) ∧
    (st.look ≠ x →
      Controls.match_char x st = .error (.expectedTok (String.mk [x]), st)) ∧
    (∀ r, Controls.match_char x st = .ok r → st.look = x ∧
      st.input = r.look :: r.input ∧ r.lcount = st.lcount ∧
      r.output = st.output) := by
  intro x sc st
  refine ⟨?_, rfl, ?_, ?_, ?_⟩
  · intro h
    simp [Cradle.match_char, h]
  · intro r h
    exact Cradle.match_char_ok_expr x sc r h
  · intro h
    simp [Controls.match_char, h]
  · intro r h
    exact Controls.match_char_ok x st r h

/-- C6, witnessed: a concrete mismatch in the expression translator and a
concrete one-character advance in the statement translator. -/
theorem C6_witness :
    Cradle.match_char '=' ⟨'a', ['b'], []⟩ =
      .error (.expectedTok "=", ⟨'a', ['b'], []⟩) ∧
    ('=' = '=' ∧ ('y' :: []) = 'y' :: [] ∧ (3 : Nat) = 3 ∧
      ([] : List Line) = []) :=
  ⟨(C6_match_char_amended '=' ⟨'a', ['b'], []⟩ ⟨'=', ['y'], 3, []⟩).1 (by decide),
   (C6_match_char_amended '=' ⟨'a', ['b'], []⟩ ⟨'=', ['y'], 3, []⟩).2.2.2.2
     ⟨'y', [], 3, []⟩ (by decide)⟩

/-! ## Claim C7: behaviour on exhausted input. -/

/-- C7 counterexample: when no input character remains the scanner does
fail fatally, but the panic is `Option::unwrap()`'s standard panic, whose
message is not `"premature end of input"`. -/
theorem C7_counterexample :
    Cradle.get_char ⟨'a', [], []⟩ = .error (.endOfInput, ⟨'a', [], []⟩) ∧
    Controls.get_char ⟨'a', [], 0, []⟩ = .error (.endOfInput, ⟨'a', [], 0, []⟩) ∧
    errMsg .endOfInput ≠ "premature end of input" := by decide

/-- C7 as amended: in both translators, asking for a character when none
remains fails fatally — via the standard `unwrap` panic with message
"called `Option::unwrap()` on a `None` value", not with a message
"premature end of input". -/
theorem C7_end_of_input_amended : ∀ (sc : Cradle.St) (st : Controls.St),
    (sc.input = [] → Cradle.get_char sc = .error (.endOfInput, sc)) ∧
    (st.input = [] → Controls.get_char st = .error (.endOfInput, st)) ∧
    errMsg .endOfInput = "called `Option::unwrap()` on a `None` value" := by
  intro sc st
  refine ⟨?_, ?_, rfl⟩
  · intro h
    simp [Cradle.get_char, h]
  · intro h
    simp [Controls.get_char, h]

/-- C7, witnessed on concrete exhausted-input states. -/
theorem C7_witness :
    Cradle.get_char ⟨'z', [], []⟩ = .error (.endOfInput, ⟨'z', [], []⟩) ∧
    Controls.get_char ⟨'z', [], 4, []⟩ = .error (.endOfInput, ⟨'z', [], 4, []⟩) :=
  ⟨(C7_end_of_input_amended ⟨'z', [], []⟩ ⟨'z', [], 4, []⟩).1 rfl,
   (C7_end_of_input_amended ⟨'z', [], []⟩ ⟨'z', [], 4, []⟩).2.1 rfl⟩

/-! ## Claim C8: block terminators. -/

/-- C8 counterexample: `block` ends at the lookahead `u` no matter what the
caller supplies — the caller-supplied argument is only a break-target
label, and two different callers get identical behaviour; the end of a
block is decided by the built-in set `['e', 'l', 'u']`. -/
theorem C8_counterexample :
    Controls.block 5 "" ⟨'u', ['x'], 0, []⟩ = .ok ⟨'u', ['x'], 0, []⟩ ∧
    Controls.block 5 "EXITLABEL" ⟨'u', ['x'], 0, []⟩ = .ok ⟨'u', ['x'], 0, []⟩ := by
  decide

/-- C8 as amended: every statement block is parsed under a caller-supplied
break-target label, but the block ends exactly when the lookahead enters
the fixed built-in terminator set `['e', 'l', 'u']`, identically for every
caller-supplied label. -/
theorem C8_block_terminators_amended : ∀ (n : Nat) (lbl : String) (s : Controls.St),
    ['e', 'l', 'u'].any (fun c => c == s.look) = true →
    Controls.block (n + 1) lbl s = .ok s := by
  intro n lbl s h
  simp [Controls.block, h]

/-- C8, witnessed on a concrete terminator lookahead. -/
theorem C8_witness :
    Controls.block 3 "L9" ⟨'l', ['x'], 7, [.instr "A"]⟩ =
      .ok ⟨'l', ['x'], 7, [.instr "A"]⟩ :=
  C8_block_terminators_amended 2 "L9" ⟨'l', ['x'], 7, [.instr "A"]⟩ (by decide)

/-! ## Claim C10: the statement translator's constructor. -/

/-- C10 counterexample: on the single-character input `x` — whose first
character is alphabetic — `Cradle::new` of the statement translator does
not emit any output line: `get_name` reads the next lookahead before
`other` can emit, so the `unwrap` panic on exhausted input fires first and
the output is empty. -/
theorem C10_counterexample :
    Controls.new ['x'] = .error (.endOfInput, ⟨'x', [], 0, []⟩) ∧
    rust_is_alphabetic 'x' = true := by decide

/-- C10 as amended: `Cradle::new` of the statement translator consumes the
first input character before any translator method is called and fails
fatally with `"Name Expected"` if that character is not alphabetic; when
it is alphabetic and a second input character exists, it emits exactly one
indented line holding the first character upper-cased; when the alphabetic
first character is the whole input, it instead panics on exhausted input
(`unwrap`) before emitting anything. -/
theorem C10_new_side_effects : ∀ (c : Char) (rest : List Char),
    (rust_is_alphabetic c = false →
      Controls.new (c :: rest) = .error (.expectedTok "Name", ⟨c, rest, 0, []⟩)) ∧
    (∀ d rest', rust_is_alphabetic c = true → rest = d :: rest' →
      Controls.new (c :: rest) =
        .ok ⟨d, rest', 0, [.instr (String.mk [to_ascii_uppercase c])]⟩) ∧
    (rust_is_alphabetic c = true → rest = [] →
      Controls.new (c :: rest) = .error (.endOfInput, ⟨c, [], 0, []⟩)) := by
  intro c rest
  refine ⟨?_, ?_, ?_⟩
  · intro h
    simp [Controls.new, Controls.seqE, Controls.get_char, Controls.other,
      Controls.get_name, h]
  · intro d rest' h hr
    subst hr
    simp [Controls.new, Controls.seqE, Controls.get_char, Controls.other,
      Controls.get_name, h, Controls.emitln]
  · intro h hr
    subst hr
    simp [Controls.new, Controls.seqE, Controls.get_char, Controls.other,
      Controls.get_name, h]

/-- C10, witnessed: a non-alphabetic first character, an alphabetic first
character with more input, and an alphabetic sole character. -/
theorem C10_witness :
    Controls.new ('1' :: ['x']) = .error (.expectedTok "Name", ⟨'1', ['x'], 0, []⟩) ∧
    Controls.new ('x' :: ['p']) = .ok ⟨'p', [], 0, [.instr "X"]⟩ ∧
    Controls.new ('z' :: []) = .error (.endOfInput, ⟨'z', [], 0, []⟩) :=
  ⟨(C10_new_side_effects '1' ['x']).1 (by decide),
   (C10_new_side_effects 'x' ['p']).2.1 'p' [] (by decide) rfl,
   (C10_new_side_effects 'z' []).2.2 (by decide) rfl⟩

end Maria
